import Mathlib

/-!
Verification of the Breezeway ETL engine (`src/etl/etl_base.py`,
`src/etl/config.py`, `src/etl/run_etl.py`, `src/shared/alerting.py`,
`src/scripts/fast_tasks_sync.py`) against its specification.

The Python code is shallowly embedded: JSON/Python values become the
inductive `Value`, Python dicts become insertion-ordered association
lists over `String`, and each function under scrutiny is translated
line by line into a Lean definition carrying the same name where
possible.
-/

namespace Breezeway

/-- A Python runtime value as it occurs in the ETL pipeline: `None`,
booleans, ints, floats (modelled as rationals, exact for the decimal
literals the pipeline handles), strings, lists and dicts. -/
inductive Value where
  | none : Value
  | bool : Bool → Value
  | int : Int → Value
  | float : Rat → Value
  | str : String → Value
  | list : List Value → Value
  | dict : List (String × Value) → Value

mutual

/-- Decidable equality on values (hand-rolled: `Value` nests `List`). -/
def Value.decEq : (a b : Value) → Decidable (a = b)
  | .none, .none => isTrue rfl
  | .bool x, .bool y =>
    if h : x = y then isTrue (by rw [h]) else isFalse (fun hc => h (by cases hc; rfl))
  | .int x, .int y =>
    if h : x = y then isTrue (by rw [h]) else isFalse (fun hc => h (by cases hc; rfl))
  | .float x, .float y =>
    if h : x = y then isTrue (by rw [h]) else isFalse (fun hc => h (by cases hc; rfl))
  | .str x, .str y =>
    if h : x = y then isTrue (by rw [h]) else isFalse (fun hc => h (by cases hc; rfl))
  | .list x, .list y =>
    match Value.decEqList x y with
    | isTrue h => isTrue (by rw [h])
    | isFalse h => isFalse (fun hc => h (by cases hc; rfl))
  | .dict x, .dict y =>
    match Value.decEqDict x y with
    | isTrue h => isTrue (by rw [h])
    | isFalse h => isFalse (fun hc => h (by cases hc; rfl))
  | .none, .bool _ => isFalse nofun
  | .none, .int _ => isFalse nofun
  | .none, .float _ => isFalse nofun
  | .none, .str _ => isFalse nofun
  | .none, .list _ => isFalse nofun
  | .none, .dict _ => isFalse nofun
  | .bool _, .none => isFalse nofun
  | .bool _, .int _ => isFalse nofun
  | .bool _, .float _ => isFalse nofun
  | .bool _, .str _ => isFalse nofun
  | .bool _, .list _ => isFalse nofun
  | .bool _, .dict _ => isFalse nofun
  | .int _, .none => isFalse nofun
  | .int _, .bool _ => isFalse nofun
  | .int _, .float _ => isFalse nofun
  | .int _, .str _ => isFalse nofun
  | .int _, .list _ => isFalse nofun
  | .int _, .dict _ => isFalse nofun
  | .float _, .none => isFalse nofun
  | .float _, .bool _ => isFalse nofun
  | .float _, .int _ => isFalse nofun
  | .float _, .str _ => isFalse nofun
  | .float _, .list _ => isFalse nofun
  | .float _, .dict _ => isFalse nofun
  | .str _, .none => isFalse nofun
  | .str _, .bool _ => isFalse nofun
  | .str _, .int _ => isFalse nofun
  | .str _, .float _ => isFalse nofun
  | .str _, .list _ => isFalse nofun
  | .str _, .dict _ => isFalse nofun
  | .list _, .none => isFalse nofun
  | .list _, .bool _ => isFalse nofun
  | .list _, .int _ => isFalse nofun
  | .list _, .float _ => isFalse nofun
  | .list _, .str _ => isFalse nofun
  | .list _, .dict _ => isFalse nofun
  | .dict _, .none => isFalse nofun
  | .dict _, .bool _ => isFalse nofun
  | .dict _, .int _ => isFalse nofun
  | .dict _, .float _ => isFalse nofun
  | .dict _, .str _ => isFalse nofun
  | .dict _, .list _ => isFalse nofun

/-- Decidable equality on lists of values. -/
def Value.decEqList : (a b : List Value) → Decidable (a = b)
  | [], [] => isTrue rfl
  | [], _ :: _ => isFalse nofun
  | _ :: _, [] => isFalse nofun
  | x :: xs, y :: ys =>
    match Value.decEq x y, Value.decEqList xs ys with
    | isTrue h1, isTrue h2 => isTrue (by rw [h1, h2])
    | isFalse h1, _ => isFalse (fun hc => h1 (by cases hc; rfl))
    | _, isFalse h2 => isFalse (fun hc => h2 (by cases hc; rfl))

/-- Decidable equality on string-keyed association lists of values. -/
def Value.decEqDict : (a b : List (String × Value)) → Decidable (a = b)
  | [], [] => isTrue rfl
  | [], _ :: _ => isFalse nofun
  | _ :: _, [] => isFalse nofun
  | (k1, v1) :: xs, (k2, v2) :: ys =>
    if hk : k1 = k2 then
      match Value.decEq v1 v2, Value.decEqDict xs ys with
      | isTrue h1, isTrue h2 => isTrue (by rw [hk, h1, h2])
      | isFalse h1, _ => isFalse (fun hc => h1 (by cases hc; rfl))
      | _, isFalse h2 => isFalse (fun hc => h2 (by cases hc; rfl))
    else isFalse (fun hc => hk (by cases hc; rfl))

end

instance : DecidableEq Value := Value.decEq

/-- A Python dict keyed by strings, in insertion order (the record shape
used throughout the ETL: raw API records, transformed parents, children). -/
abbrev Record := List (String × Value)

/-- Python `d.get(k, default)`. -/
def dgetD : Record → String → Value → Value
  | [], _, d => d
  | p :: rest, k, d => if p.1 = k then p.2 else dgetD rest k d

/-- Python `d.get(k)` (default `None`). -/
def dget (r : Record) (k : String) : Value :=
  dgetD r k Value.none

/-- Python `k in d`. -/
def dmem : Record → String → Bool
  | [], _ => false
  | p :: rest, k => if p.1 = k then true else dmem rest k

/-- Python `d[k] = v`: overwrite in place if the key exists, else append
(insertion order preserved, as for a Python dict). -/
def dset : Record → String → Value → Record
  | [], k, v => [(k, v)]
  | p :: rest, k, v => if p.1 = k then (k, v) :: rest else p :: dset rest k v

/-- Python `d.pop(k, None)` restricted to its removal effect. -/
def dremove (r : Record) (k : String) : Record :=
  r.filter (fun p => p.1 ≠ k)

/-- Python truthiness of a value (`if value:`). -/
def truthy : Value → Bool
  | Value.none => false
  | Value.bool b => b
  | Value.int n => n ≠ 0
  | Value.float q => q ≠ 0
  | Value.str s => s ≠ ""
  | Value.list l => ¬ l.isEmpty
  | Value.dict d => ¬ d.isEmpty

/-! ### Natural-key deduplication (`BreezewayETL.transform`, lines 277-296,
and the in-batch child deduplication of `_upsert_children`, lines 806-821).
Both sites run the same idiom: walk the records in order, keep a `seen`
set of natural-key tuples, keep a record only if its tuple is unseen,
count the dropped ones. -/

/-- The natural-key tuple of a record: `tuple(record.get(k) for k in natural_keys)`. -/
def keyTuple (ks : List String) (r : Record) : List Value :=
  ks.map (dget r)

/-- The dedup loop of `transform` (and of `_upsert_children`): `seen` is the
set of key tuples already encountered; returns the surviving records and the
count of dropped duplicates. -/
def dedupLoop (ks : List String) : List Record → List (List Value) → List Record × Nat
  | [], _ => ([], 0)
  | r :: rest, seen =>
    let k := keyTuple ks r
    if k ∈ seen then
      let out := dedupLoop ks rest seen
      (out.1, out.2 + 1)
    else
      let out := dedupLoop ks rest (k :: seen)
      (r :: out.1, out.2)

/-- Deduplication as `transform` invokes it: empty `seen` to start. -/
def dedupRecords (ks : List String) (records : List Record) : List Record × Nat :=
  dedupLoop ks records []


/-! ### Python numeric conversions and exception model
(`BreezewayETL._transform_parent`, lines 298-343). -/

/-- The exception classes the coercion code can raise and catch. -/
inductive PyErr where
  | valueError
  | typeError
  | indexError
deriving DecidableEq

/-- Digits of a numeral read as a natural number. -/
def digitsToNat (cs : List Char) : Nat :=
  cs.foldl (fun a c => a * 10 + (c.toNat - 48)) 0

/-- Python whitespace for `str.split()`, `str.strip()` and the whitespace
tolerance of `float()`/`int()`. -/
def isPySpace (c : Char) : Bool :=
  c = ' ' ∨ c = '\t' ∨ c = '\n' ∨ c = '\r' ∨ c = Char.ofNat 11 ∨ c = Char.ofNat 12

/-- Strip leading and trailing whitespace from a character list. -/
def stripChars (cs : List Char) : List Char :=
  ((cs.dropWhile isPySpace).reverse.dropWhile isPySpace).reverse

/-- Read an optional leading sign, returning the sign and the rest. -/
def readSign : List Char → Int × List Char
  | '-' :: rest => (-1, rest)
  | '+' :: rest => (1, rest)
  | cs => (1, cs)

/-- Split a character list at every dot, keeping empty pieces
(the shape analysis of a decimal literal). -/
def splitOnDot (cs : List Char) : List (List Char) :=
  cs.foldr
    (fun c acc =>
      match acc with
      | [] => if c = '.' then [[], []] else [[c]]
      | h :: t => if c = '.' then [] :: h :: t else (c :: h) :: t)
    [[]]

/-- Modelled semantics of Python `float(s)` on plain decimal literals:
optional surrounding whitespace, optional sign, then `digits`,
`digits.digits`, `digits.` or `.digits`. Exponent, infinity and nan forms
do not occur in the data this pipeline coerces and are not modelled. -/
def parseDecimal? (s : String) : Option Rat :=
  let signed := readSign (stripChars s.toList)
  match splitOnDot signed.2 with
  | [a] =>
    if a ≠ [] ∧ a.all (fun c => c.isDigit) then
      Option.some (mkRat (signed.1 * (digitsToNat a : Int)) 1)
    else Option.none
  | [a, b] =>
    if (a.all (fun c => c.isDigit)) ∧ (b.all (fun c => c.isDigit)) ∧ ¬ (a = [] ∧ b = []) then
      Option.some (mkRat (signed.1 * ((digitsToNat a * 10 ^ b.length + digitsToNat b : Nat) : Int))
        (10 ^ b.length))
    else Option.none
  | _ => Option.none

/-- Modelled semantics of Python `int(s)`: optional surrounding whitespace,
optional sign, then decimal digits only (so `int("36.5")` fails). -/
def parseIntStr? (s : String) : Option Int :=
  let signed := readSign (stripChars s.toList)
  if signed.2 ≠ [] ∧ (signed.2).all (fun c => c.isDigit) then
    Option.some (signed.1 * (digitsToNat signed.2 : Int))
  else Option.none

/-- Truncation toward zero, the rounding of Python `int(float)`. -/
def truncRat (q : Rat) : Int :=
  if q.num ≥ 0 then Int.ofNat (q.num.toNat / q.den) else -(Int.ofNat ((-q.num).toNat / q.den))

/-- Python `float(value)`: floats and ints pass through, booleans become
0/1, strings are parsed (`ValueError` on failure), anything else raises
`TypeError`. -/
def pyFloat : Value → Except PyErr Rat
  | Value.float q => Except.ok q
  | Value.int n => Except.ok (n : Rat)
  | Value.bool b => Except.ok (if b then 1 else 0)
  | Value.str s =>
    match parseDecimal? s with
    | Option.some q => Except.ok q
    | Option.none => Except.error PyErr.valueError
  | Value.none => Except.error PyErr.typeError
  | Value.list _ => Except.error PyErr.typeError
  | Value.dict _ => Except.error PyErr.typeError

/-- Python `int(value)`. -/
def pyIntConv : Value → Except PyErr Int
  | Value.int n => Except.ok n
  | Value.bool b => Except.ok (if b then 1 else 0)
  | Value.float q => Except.ok (truncRat q)
  | Value.str s =>
    match parseIntStr? s with
    | Option.some n => Except.ok n
    | Option.none => Except.error PyErr.valueError
  | Value.none => Except.error PyErr.typeError
  | Value.list _ => Except.error PyErr.typeError
  | Value.dict _ => Except.error PyErr.typeError

/-- Tokenize a character list at whitespace runs (helper for `pySplit`). -/
def splitTokens : List Char → List (List Char)
  | [] => []
  | c :: rest =>
    if isPySpace c then splitTokens rest
    else
      match splitTokens rest with
      | [] => [[c]]
      | t :: ts =>
        match rest with
        | [] => [[c]]
        | d :: _ => if isPySpace d then [c] :: t :: ts else (c :: t) :: ts

/-- Python `s.split()`: split on whitespace runs, dropping empty pieces. -/
def pySplit (s : String) : List String :=
  (splitTokens s.toList).map String.mk

/-- The `try` body of the coordinate coercion (`_transform_parent`, lines
312-315): `value = float(value) if value else None`. -/
def coordBody (v : Value) : Except PyErr Value :=
  if truthy v then
    match pyFloat v with
    | Except.ok q => Except.ok (Value.float q)
    | Except.error e => Except.error e
  else Except.ok Value.none

/-- The `try` body of the company-id coercion (lines 317-320):
`value = int(value) if value else None`. -/
def companyBody (v : Value) : Except PyErr Value :=
  if truthy v then
    match pyIntConv v with
    | Except.ok n => Except.ok (Value.int n)
    | Except.error e => Except.error e
  else Except.ok Value.none

/-- The `try` body of the rate_paid coercion (lines 323-327): strip the
currency suffix by keeping the first whitespace-separated token of a
string (`value.split()[0]`, `IndexError` when the split is empty), then
`float(value) if value else None`. -/
def ratePaidBody (v : Value) : Except PyErr Value :=
  match v with
  | Value.str s =>
    match pySplit s with
    | [] => Except.error PyErr.indexError
    | t :: _ =>
      if truthy (Value.str t) then
        match pyFloat (Value.str t) with
        | Except.ok q => Except.ok (Value.float q)
        | Except.error e => Except.error e
      else Except.ok Value.none
  | _ =>
    if truthy v then
      match pyFloat v with
      | Except.ok q => Except.ok (Value.float q)
      | Except.error e => Except.error e
    else Except.ok Value.none

/-- Run a coercion body catching the listed exception classes into `None`
(the `except (...)` clauses of `_transform_parent`); an exception outside
the list would propagate. -/
def pyCatch (caught : List PyErr) (body : Except PyErr Value) : Except PyErr Value :=
  match body with
  | Except.ok w => Except.ok w
  | Except.error e => if e ∈ caught then Except.ok Value.none else Except.error e

/-- The whole type-conversion block of `_transform_parent` (lines 308-331)
for one mapped field, exceptions included: no coercion when the raw value
is `None`, column-name-directed coercions otherwise, each wrapped in its
own `try/except`. -/
def applyCoercionE (db_column : String) (v : Value) : Except PyErr Value :=
  if v = Value.none then Except.ok v
  else if db_column = "latitude_numeric" ∨ db_column = "longitude_numeric" then
    pyCatch [PyErr.valueError, PyErr.typeError] (coordBody v)
  else if db_column = "company_id" then
    pyCatch [PyErr.valueError, PyErr.typeError] (companyBody v)
  else if db_column = "rate_paid" then
    pyCatch [PyErr.valueError, PyErr.typeError, PyErr.indexError] (ratePaidBody v)
  else Except.ok v

/-- The exception-free value computed by the conversion block (the
`except` clauses of lines 308-331 turn every raised error into `None`). -/
def applyCoercion (db_column : String) (v : Value) : Value :=
  match applyCoercionE db_column v with
  | Except.ok w => w
  | Except.error _ => Value.none

/-! ### Entity catalog (`src/etl/config.py`) -/

/-- A child-table definition (`config.py`, `child_tables` entries). -/
structure ChildConfig where
  table_name : String
  requires_api_call : Bool := false
  api_field : Option String := Option.none
  endpoint_template : Option String := Option.none
  parent_id_field : Option String := Option.none
  parent_fk : String
  natural_key : List String := []
  fields_mapping : List (String × String) := []
deriving DecidableEq

/-- An entity definition (`config.py`, `ENTITY_CONFIGS` entries). -/
structure EntityConfig where
  endpoint : String
  api_id_field : String
  table_name : String
  natural_key : List String
  requires_property_filter : Bool := false
  filter_by_company : Bool := false
  filter_by_status : Option String := Option.none
  transform_filter_status : Option String := Option.none
  fields_mapping : List (String × String)
  nested_fields : List (String × List (String × String)) := []
  child_tables : List (String × ChildConfig) := []
deriving DecidableEq

/-- `ENTITY_CONFIGS['properties']` (config.py, lines 64-116). -/
def propertiesConfig : EntityConfig where
  endpoint := "/property"
  api_id_field := "id"
  table_name := "properties"
  natural_key := ["property_id", "region_code"]
  filter_by_company := true
  transform_filter_status := Option.some "active"
  child_tables :=
    [("photos",
      { table_name := "property_photos"
        api_field := Option.some "photos"
        parent_fk := "property_pk"
        natural_key := ["photo_id", "property_pk"] })]
  fields_mapping :=
    [("id", "property_id"), ("company_id", "company_id"), ("name", "property_name"),
     ("status", "property_status"), ("reference_company_id", "reference_company_id"),
     ("reference_external_property_id", "reference_external_property_id"),
     ("reference_property_id", "reference_property_id"), ("address1", "property_address1"),
     ("address2", "property_address2"), ("city", "property_city"), ("state", "property_state"),
     ("zipcode", "property_zipcode"), ("country", "property_country"),
     ("building", "property_building"), ("latitude", "latitude_numeric"),
     ("longitude", "longitude_numeric"), ("display", "property_display"),
     ("wifi_name", "wifi_name"), ("wifi_password", "wifi_password"), ("bedrooms", "bedrooms"),
     ("bathrooms", "bathrooms"), ("living_area", "living_area"), ("year_built", "year_built")]
  nested_fields :=
    [("notes",
      [("about", "property_notes_general"), ("access", "property_notes_access"),
       ("guest_access", "property_notes_guest_access"), ("direction", "property_notes_direction"),
       ("trash_info", "property_notes_trash_info"), ("wifi", "property_notes_wifi")])]

/-- `ENTITY_CONFIGS['tasks']` (config.py, lines 156-316). -/
def tasksConfig : EntityConfig where
  endpoint := "/task"
  api_id_field := "id"
  table_name := "tasks"
  natural_key := ["task_id", "region_code"]
  requires_property_filter := true
  child_tables :=
    [("assignments",
      { table_name := "task_assignments", api_field := Option.some "assignments"
        parent_fk := "task_pk", natural_key := ["task_pk", "assignee_id"] }),
     ("photos",
      { table_name := "task_photos", api_field := Option.some "photos"
        parent_fk := "task_pk", natural_key := ["task_pk", "photo_id"] }),
     ("comments",
      { table_name := "task_comments", requires_api_call := true
        endpoint_template := Option.some "/task/{task_id}/comments"
        parent_fk := "task_pk", parent_id_field := Option.some "task_id"
        natural_key := ["comment_id", "region_code"] }),
     ("requirements",
      { table_name := "task_requirements", requires_api_call := true
        endpoint_template := Option.some "/task/{task_id}/requirements"
        parent_fk := "task_pk", parent_id_field := Option.some "task_id"
        natural_key := ["task_pk", "requirement_id"]
        fields_mapping :=
          [("id", "requirement_id"), ("section_name", "section_name"), ("action", "action"),
           ("response", "response"), ("type", "type_requirement"),
           ("photo_required", "photo_required"), ("photos", "photos"), ("note", "note"),
           ("home_element_name", "home_element_name")] }),
     ("task_tags",
      { table_name := "task_tags", api_field := Option.some "task_tags"
        parent_fk := "task_pk", natural_key := ["task_pk", "tag_pk"] }),
     ("supplies",
      { table_name := "task_supplies", api_field := Option.some "supplies"
        parent_fk := "task_pk", natural_key := ["task_pk", "supply_usage_id"]
        fields_mapping :=
          [("id", "supply_usage_id"), ("supply_id", "supply_id"), ("name", "name"),
           ("description", "description"), ("size", "size"), ("quantity", "quantity"),
           ("unit_cost", "unit_cost"), ("total_price", "total_price"), ("bill_to", "bill_to"),
           ("billable", "billable"), ("markup_pricing_type", "markup_pricing_type"),
           ("markup_rate", "markup_rate")] }),
     ("costs",
      { table_name := "task_costs", api_field := Option.some "costs"
        parent_fk := "task_pk", natural_key := ["task_pk", "cost_id"]
        fields_mapping :=
          [("id", "cost_id"), ("cost", "cost"), ("description", "description"),
           ("bill_to", "bill_to"), ("created_at", "created_at"), ("updated_at", "updated_at")] })]
  fields_mapping :=
    [("id", "task_id"), ("home_id", "home_id"), ("name", "task_name"),
     ("description", "task_description"), ("status", "task_status"), ("paused", "task_paused"),
     ("bill_to", "bill_to"), ("rate_type", "rate_type"), ("rate_paid", "rate_paid"),
     ("created_at", "created_at"), ("finished_at", "finished_at"), ("started_at", "started_at"),
     ("template_id", "template_task_id"), ("type_department", "type_department"),
     ("type_priority", "type_priority"), ("scheduled_date", "scheduled_date"),
     ("scheduled_time", "scheduled_time"), ("checkin_date", "checkin_date"),
     ("checkout_date", "checkout_date"), ("report_url", "report_url"),
     ("reference_property_id", "reference_property_id"), ("total_cost", "total_cost"),
     ("total_time", "total_time"), ("estimated_time", "estimated_time"),
     ("estimated_rate", "estimated_rate"), ("billable", "billable"),
     ("itemized_cost", "itemized_cost"), ("task_series_id", "task_series_id"),
     ("parent_task_id", "parent_task_id")]
  nested_fields :=
    [("created_by", [("id", "created_by_id"), ("name", "created_by_name")]),
     ("finished_by", [("id", "finished_by_id"), ("name", "finished_by_name")]),
     ("type_task_status",
      [("code", "task_status_code"), ("name", "task_status_name"), ("stage", "task_status_stage")]),
     ("subdepartment", [("id", "subdepartment_id"), ("name", "subdepartment_name")]),
     ("template", [("name", "template_name")]),
     ("requested_by", [("id", "requested_by_id"), ("name", "requested_by_name")]),
     ("summary", [("note", "summary_note")]),
     ("linked_reservation",
      [("id", "linked_reservation_id"), ("external_reservation_id", "linked_reservation_external_id")])]

/-! ### Transform (`BreezewayETL.transform`, `_transform_parent`,
`_transform_children`, lines 234-448) -/

/-- Python `str(v)` for the scalar shapes the pipeline stringifies (record
identifiers are strings or ints in the API payloads); the composite cases
carry a marker, they are not exercised by any claim. -/
def pyStr : Value → String
  | Value.str s => s
  | Value.int n => toString n
  | Value.bool b => if b then "True" else "False"
  | Value.none => "None"
  | Value.float _ => "<float>"
  | Value.list _ => "<list>"
  | Value.dict _ => "<dict>"

/-- Python `child.get(k, dflt)` for a raw child element. The source assumes
every element of an embedded array is a dict (a non-dict element would
raise `AttributeError`, caught and skipped by `transform`'s per-record
handler); the non-dict case is modelled as the default, a shape no claim
exercises. -/
def elemGetD (v : Value) (k : String) (dflt : Value) : Value :=
  match v with
  | Value.dict d => dgetD d k dflt
  | _ => dflt

/-- Python `child.get(k)` for a raw child element. -/
def elemGet (v : Value) (k : String) : Value :=
  elemGetD v k Value.none

/-- Python `d.update({...})` with a literal dict. -/
def updates (r : Record) (kvs : List (String × Value)) : Record :=
  kvs.foldl (fun a p => dset a p.1 p.2) r

/-- Modelled `json.dumps` on the scalar shapes; composite payloads carry a
marker (no claim inspects the encoded text). -/
def jsonScalarText : Value → String
  | Value.none => "null"
  | Value.bool b => if b then "true" else "false"
  | Value.int n => toString n
  | Value.str s => "\x22" ++ s ++ "\x22"
  | _ => "<json>"

/-- `json.dumps(x) if x else None`, the encoding idiom of the requirements
branch (lines 424 and 428). -/
def jsonDumpsIfTruthy (v : Value) : Value :=
  if truthy v then Value.str (jsonScalarText v) else Value.none

/-- One iteration of the field-mapping loop of `_transform_parent`
(lines 305-331): read the API field, coerce by target-column name, write
the column. -/
def fieldStep (record : Record) (acc : Record) (m : String × String) : Record :=
  dset acc m.2 (applyCoercion m.2 (dget record m.1))

/-- One iteration of the nested-field loop of `_transform_parent`
(lines 334-338): read the named sub-object (default `{}` when the key is
missing); when it is a dict, copy each declared sub-field into its flat
column; any other value (such as an explicit null) leaves the record
untouched. -/
def nestedStep (record : Record) (acc : Record) (g : String × List (String × String)) : Record :=
  match dgetD record g.1 (Value.dict []) with
  | Value.dict d => g.2.foldl (fun acc2 nm => dset acc2 nm.2 (dget d nm.1)) acc
  | _ => acc

/-- `BreezewayETL._transform_parent` (lines 298-343): start from
`region_code`, copy every mapped field through the column-name-directed
coercions, flatten the declared nested groups, and stamp `synced_at` (the
timestamp value is a parameter, keeping the embedding deterministic). -/
def transform_parent (cfg : EntityConfig) (region : String) (syncedAt : Value)
    (record : Record) : Record :=
  dset
    (cfg.nested_fields.foldl (nestedStep record)
      (cfg.fields_mapping.foldl (fieldStep record) [("region_code", Value.str region)]))
    "synced_at" syncedAt

/-- The per-element body of `BreezewayETL._transform_children`
(lines 363-446): `region_code`, then the branch hand-mapped for the child
table's name, then the transient `_parent_api_id`. -/
def transformChildElem (region entity_type api_id_field child_name : String)
    (parent_record : Record) (child : Value) : Record :=
  let t0 : Record := [("region_code", Value.str region)]
  let t1 :=
    if child_name = "photos" ∧ entity_type = "tasks" then
      updates t0
        [("task_id", Value.str (pyStr (dgetD parent_record "id" (Value.str "")))),
         ("photo_id", Value.str (pyStr (elemGetD child "id" (Value.str "")))),
         ("url", elemGet child "url"),
         ("caption", elemGet child "caption"),
         ("uploaded_at", elemGet child "uploaded_at")]
    else if child_name = "photos" then
      updates t0
        [("photo_id", Value.str (pyStr (elemGetD child "id" (Value.str "")))),
         ("caption", elemGet child "caption"),
         ("is_default", elemGetD child "default" (Value.bool false)),
         ("original_url", elemGet child "original_url"),
         ("url", elemGet child "url")]
    else if child_name = "guests" then
      updates t0
        [("guest_name", elemGet child "name"),
         ("guest_email", elemGet child "email"),
         ("guest_phone", elemGet child "phone"),
         ("is_primary", elemGetD child "primary" (Value.bool false))]
    else if child_name = "assignments" then
      let assignee := elemGetD child "assignee" (Value.dict [])
      updates t0
        [("task_id", Value.str (pyStr (dgetD parent_record "id" (Value.str "")))),
         ("assignee_id", Value.str (pyStr (elemGetD assignee "id" (Value.str "")))),
         ("assignee_name", elemGet assignee "name"),
         ("assigned_at", elemGet child "assigned_at")]
    else if child_name = "comments" then
      updates t0
        [("comment_id", Value.str (pyStr (elemGetD child "id" (Value.str "")))),
         ("comment", elemGet child "comment"),
         ("author_name", elemGet (elemGetD child "author" (Value.dict [])) "name"),
         ("author_id",
          Value.str (pyStr (elemGetD (elemGetD child "author" (Value.dict [])) "id" (Value.str "")))),
         ("created_at", elemGet child "created_at"),
         ("updated_at", elemGet child "updated_at")]
    else if child_name = "requirements" then
      updates t0
        [("requirement_id", Value.str (pyStr (elemGetD child "id" (Value.str "")))),
         ("section_name", elemGet child "section_name"),
         ("action", jsonDumpsIfTruthy (elemGet child "action")),
         ("response", elemGet child "response"),
         ("type_requirement", elemGet child "type_requirement"),
         ("photo_required", elemGet child "photo_required"),
         ("photos", jsonDumpsIfTruthy (elemGet child "photos")),
         ("note", elemGet child "note"),
         ("home_element_name", elemGet child "home_element_name")]
    else if child_name = "task_tags" then
      let tag_id := pyStr (elemGetD child "id" (Value.str ""))
      if tag_id ≠ "" then updates t0 [("tag_id", Value.str tag_id)] else t0
    else t0
  dset t1 "_parent_api_id" (Value.str (pyStr (dgetD parent_record api_id_field (Value.str ""))))

/-- `BreezewayETL._transform_children` (lines 345-448): nothing for
API-call children, nothing without an embedded `api_field`, nothing when
the embedded value is missing or not a list; otherwise one record per
array element. -/
def transform_children (region entity_type api_id_field child_name : String)
    (child_config : ChildConfig) (parent_record : Record) : List Record :=
  if child_config.requires_api_call then []
  else
    match child_config.api_field with
    | Option.none => []
    | Option.some api_field =>
      if api_field = "" then []
      else
        match dgetD parent_record api_field (Value.list []) with
        | Value.list child_list =>
          child_list.map (transformChildElem region entity_type api_id_field child_name parent_record)
        | _ => []

/-- The transform-time status pre-filter (lines 246-253): keep records
whose `status` field equals the configured value, when one is configured. -/
def statusFiltered (cfg : EntityConfig) (records : List Record) : List Record :=
  match cfg.transform_filter_status with
  | Option.some s => records.filter (fun r => dget r "status" = Value.str s)
  | Option.none => records

/-- The parent-record list `transform` accumulates before deduplication
(lines 255-275, parents only; `_transform_parent` never raises, so every
filtered record contributes one parent). -/
def transformParents (cfg : EntityConfig) (region : String) (syncedAt : Value)
    (records : List Record) : List Record :=
  (statusFiltered cfg records).map (transform_parent cfg region syncedAt)

/-- `BreezewayETL.transform` (lines 234-296): status filter, per-record
parent and child transformation, then natural-key deduplication of the
parents; returns the deduplicated parents, the dropped-duplicate count and
the child records per child table. -/
def transform (cfg : EntityConfig) (entity_type region : String) (syncedAt : Value)
    (records : List Record) : (List Record × Nat) × List (String × List Record) :=
  let filtered := statusFiltered cfg records
  let parents := filtered.map (transform_parent cfg region syncedAt)
  let children := cfg.child_tables.map
    (fun ct =>
      (ct.1, filtered.flatMap
        (fun r => transform_children region entity_type cfg.api_id_field ct.1 ct.2 r)))
  (dedupRecords cfg.natural_key parents, children)

/-! ### Standard-mode extraction (`BreezewayETL._extract_standard`,
lines 112-180) -/

/-- A parsed response body as the pagination loop reads it: a direct JSON
array, a JSON object (with its `results` list, empty when the key is
absent), or any other JSON value. -/
inductive Body where
  | arr (elems : List Value)
  | obj (results : List Value)
  | other
deriving DecidableEq

/-- The result list read from a body (lines 156-162). -/
def bodyResults : Body → List Value
  | Body.arr l => l
  | Body.obj r => r
  | Body.other => []

/-- `isinstance(data, list)` on a body. -/
def bodyIsArr : Body → Bool
  | Body.arr _ => true
  | _ => false

/-- The `while True` pagination loop of `_extract_standard` (lines
138-180) over an abstract page-indexed response sequence. `fuel` bounds
the number of iterations the model may take; `Option.none` means the fuel
ran out before the loop's own exit — the loop itself has no bound. -/
def extractLoop (pages : Nat → Body) : Nat → Nat → List Value → Option (List Value)
  | 0, _, _ => Option.none
  | fuel + 1, page, acc =>
    let data := pages page
    let results := bodyResults data
    if results = [] then Option.some acc
    else if bodyIsArr data then Option.some (acc ++ results)
    else extractLoop pages fuel (page + 1) (acc ++ results)

/-- `_extract_standard` as the loop started at page 1 with no records. -/
def extractStandard (pages : Nat → Body) (fuel : Nat) : Option (List Value) :=
  extractLoop pages fuel 1 []

/-- The concatenation of the result lists of pages `start, ..., start+cnt-1`. -/
def pageConcat (pages : Nat → Body) (start cnt : Nat) : List Value :=
  match cnt with
  | 0 => []
  | n + 1 => bodyResults (pages start) ++ pageConcat pages (start + 1) n

/-! ### Parent-to-parent FK resolution (`BreezewayETL._resolve_parent_fks`,
lines 679-727, and `resolve_fks` of `src/scripts/fast_tasks_sync.py`,
lines 164-185) -/

/-- A persisted property row, as the FK-resolution UPDATEs read it. -/
structure PropRow where
  id : Nat
  region_code : String
  property_id : Value
deriving DecidableEq

/-- A persisted reservation row. -/
structure ResRow where
  id : Nat
  region_code : String
  property_id : Value
  reservation_id : Value
  property_pk : Option Nat
deriving DecidableEq

/-- A persisted task row. -/
structure TaskRow where
  id : Nat
  region_code : String
  home_id : Value
  linked_reservation_id : Value
  property_pk : Option Nat
  reservation_pk : Option Nat
deriving DecidableEq

/-- SQL equality in a WHERE clause: a comparison involving NULL is never
true. -/
def sqlEq (a b : Value) : Bool :=
  a ≠ Value.none ∧ b ≠ Value.none ∧ a = b

/-- Whether the reservations UPDATE (lines 687-695) touches row `t`:
tenant-scoped, `property_pk IS NULL`, and a property row joins on
`property_id`. -/
def resRowMatch (region : String) (props : List PropRow) (t : ResRow) : Bool :=
  t.region_code = region ∧ t.property_pk = Option.none ∧
    (props.find? (fun p => sqlEq t.property_id p.property_id ∧ p.region_code = t.region_code)).isSome

/-- The effect of the reservations UPDATE on one row (the first joining
property supplies the surrogate key; the UPDATE is deterministic in
practice because `(property_id, region_code)` is the properties natural
key). -/
def resRowStep (region : String) (props : List PropRow) (t : ResRow) : ResRow :=
  if t.region_code = region ∧ t.property_pk = Option.none then
    match props.find? (fun p => sqlEq t.property_id p.property_id ∧ p.region_code = t.region_code) with
    | Option.some p => { t with property_pk := Option.some p.id }
    | Option.none => t
  else t

/-- The reservations branch of `_resolve_parent_fks` (lines 685-697):
the updated table and the SQL rowcount. -/
def resolveReservationFks (region : String) (props : List PropRow) (resvs : List ResRow) :
    List ResRow × Nat :=
  (resvs.map (resRowStep region props), resvs.countP (resRowMatch region props))

/-- Whether the first tasks UPDATE (lines 702-710) touches row `t`:
tenant-scoped, `property_pk IS NULL`, and a property row joins on
`home_id`. -/
def taskPropMatch (region : String) (props : List PropRow) (t : TaskRow) : Bool :=
  t.region_code = region ∧ t.property_pk = Option.none ∧
    (props.find? (fun p => sqlEq t.home_id p.property_id ∧ p.region_code = t.region_code)).isSome

/-- The effect of the first tasks UPDATE on one row. -/
def taskPropStep (region : String) (props : List PropRow) (t : TaskRow) : TaskRow :=
  if t.region_code = region ∧ t.property_pk = Option.none then
    match props.find? (fun p => sqlEq t.home_id p.property_id ∧ p.region_code = t.region_code) with
    | Option.some p => { t with property_pk := Option.some p.id }
    | Option.none => t
  else t

/-- Whether the second tasks UPDATE (lines 716-725) touches row `t`:
tenant-scoped, `reservation_pk IS NULL`, `linked_reservation_id IS NOT
NULL`, and a reservation row joins on `linked_reservation_id`. -/
def taskResMatch (region : String) (resvs : List ResRow) (t : TaskRow) : Bool :=
  t.region_code = region ∧ t.reservation_pk = Option.none ∧
    t.linked_reservation_id ≠ Value.none ∧
    (resvs.find? (fun r => sqlEq t.linked_reservation_id r.reservation_id ∧
      r.region_code = t.region_code)).isSome

/-- The effect of the second tasks UPDATE on one row. -/
def taskResStep (region : String) (resvs : List ResRow) (t : TaskRow) : TaskRow :=
  if t.region_code = region ∧ t.reservation_pk = Option.none ∧
      t.linked_reservation_id ≠ Value.none then
    match resvs.find? (fun r => sqlEq t.linked_reservation_id r.reservation_id ∧
        r.region_code = t.region_code) with
    | Option.some r => { t with reservation_pk := Option.some r.id }
    | Option.none => t
  else t

/-- The tasks branch of `_resolve_parent_fks` (lines 699-727): both
UPDATEs in sequence, with their two rowcounts. (The standalone
`resolve_fks` of `fast_tasks_sync.py` runs the same second statement.) -/
def resolveTaskFks (region : String) (props : List PropRow) (resvs : List ResRow)
    (tasks : List TaskRow) : List TaskRow × Nat × Nat :=
  let afterProp := tasks.map (taskPropStep region props)
  let c1 := tasks.countP (taskPropMatch region props)
  (afterProp.map (taskResStep region resvs), c1, afterProp.countP (taskResMatch region resvs))

/-! ### Child upsert (`BreezewayETL._upsert_children`, lines 729-872) -/

/-- The parent-FK attachment of `_upsert_children` (lines 760-766) on one
child record: pop the transient `_parent_api_id`; when it is truthy and
the tenant-scoped parent mapping resolves it, set the parent-FK column to
the parent's surrogate key. -/
def resolveChildRecord (parent_fk : String) (parentMapping : List (String × Nat))
    (r : Record) : Record :=
  let pid := dget r "_parent_api_id"
  let r2 := dremove r "_parent_api_id"
  match pid with
  | Value.str s =>
    if truthy (Value.str s) then
      match parentMapping.find? (fun m => m.1 = s) with
      | Option.some m => dset r2 parent_fk (Value.int m.2)
      | Option.none => r2
    else r2
  | _ => r2

/-- The tag-bridge resolution of `_upsert_children` (lines 787-794) on one
`task_tags` record: pop `tag_id`; when the tag mapping resolves it, set
`tag_pk`. -/
def resolveTagRecord (tagMapping : List (String × Nat)) (r : Record) : Record :=
  let tid := dget r "tag_id"
  let r2 := dremove r "tag_id"
  match tid with
  | Value.str s =>
    if truthy (Value.str s) then
      match tagMapping.find? (fun m => m.1 = s) with
      | Option.some m => dset r2 "tag_pk" (Value.int m.2)
      | Option.none => r2
    else r2
  | _ => r2

/-- The record pipeline of `_upsert_children` up to the INSERT statement
(lines 760-824): attach parent FKs and drop unresolvable children, run the
tag-bridge resolution for `task_tags` and drop unresolvable rows, then
deduplicate within the batch by the child natural key (no deduplication
when no natural key is declared). The result is exactly the record list
handed to `execute_values`. -/
def upsertChildrenBatch (child_type parent_fk : String) (natural_key : List String)
    (parentMapping tagMapping : List (String × Nat)) (records : List Record) : List Record :=
  let resolved := (records.map (resolveChildRecord parent_fk parentMapping)).filter
    (fun r => dmem r parent_fk)
  let afterTags :=
    if child_type = "task_tags" then
      (resolved.map (resolveTagRecord tagMapping)).filter (fun r => dmem r "tag_pk")
    else resolved
  if natural_key ≠ [] then (dedupLoop natural_key afterTags []).1 else afterTags

/-! ### Batch driver (`run_etl.py`, lines 41-147, and
`AlertManager.send_success_summary`, alerting.py lines 173-233) -/

/-- An alert emitted through the alerting collaborator. -/
inductive AlertEvent where
  | failure (region entity : String) (error_msg : String)
  | summary (total successful failed : Nat)
deriving DecidableEq

/-- `run_single_etl` (run_etl.py, lines 41-83): run one (tenant, entity)
pair; any exception is caught, turned into one failure alert, and reported
as an unsuccessful flag — nothing propagates. -/
def run_single_etl (region entity : String) (outcome : Except String Unit) :
    Bool × List AlertEvent :=
  match outcome with
  | Except.ok _ => (true, [])
  | Except.error e => (false, [AlertEvent.failure region entity e])

/-- `AlertManager.send_success_summary` (alerting.py, lines 173-233):
nothing when no job failed, otherwise one summary alert. -/
def send_success_summary (total successful failed : Nat) : List AlertEvent :=
  if failed = 0 then [] else [AlertEvent.summary total successful failed]

/-- The pairs the batch driver iterates: regions outer, entities inner. -/
def batchPairs (regions entities : List String) : List (String × String) :=
  regions.flatMap (fun r => entities.map (fun e => (r, e)))

/-- The loop body of `run_etl` (lines 112-124): run the pair, bump the
success or failure counter, keep the alerts emitted so far in order. The
accumulator is (successes, failures, alerts). -/
def runStep (etlRun : String → String → Except String Unit)
    (acc : Nat × Nat × List AlertEvent) (p : String × String) : Nat × Nat × List AlertEvent :=
  let res := run_single_etl p.1 p.2 (etlRun p.1 p.2)
  if res.1 then (acc.1 + 1, acc.2.1, acc.2.2 ++ res.2)
  else (acc.1, acc.2.1 + 1, acc.2.2 ++ res.2)

/-- Whether a pair's run raises (the failure the driver counts). -/
def pairFailed (etlRun : String → String → Except String Unit) (p : String × String) : Bool :=
  match etlRun p.1 p.2 with
  | Except.error _ => true
  | Except.ok _ => false

/-- The alerts one pair's run emits. -/
def pairAlerts (etlRun : String → String → Except String Unit) (p : String × String) :
    List AlertEvent :=
  (run_single_etl p.1 p.2 (etlRun p.1 p.2)).2

/-- `run_etl` (run_etl.py, lines 86-147): run every pair of the Cartesian
product in order through `run_single_etl`, accumulate success and failure
counts and the alerts emitted, then the end-of-batch summary alert; the
first component is the failure count the caller turns into the process
exit code, the second the success count, the third the alerts in order.
`etlRun` abstracts what `BreezewayETL(...).run()` does for a pair: normal
completion or a raised exception. -/
def run_etl (regions entities : List String) (etlRun : String → String → Except String Unit) :
    Nat × Nat × List AlertEvent :=
  let pairs := batchPairs regions entities
  let final := pairs.foldl (runStep etlRun) (0, 0, [])
  (final.2.1, final.1,
    final.2.2 ++ send_success_summary pairs.length final.1 final.2.1)

/-! ### API retry (`api_request_with_retry`) -/

/-- One API attempt's observable outcome. -/
inductive ApiOutcome where
  | success
  | timeout
  | serverError (code : Nat)
  | rateLimited (retryAfter : Nat)
  | clientError (code : Nat)
deriving DecidableEq

/-- The observable behaviour of a retry run: how many attempts were
issued, the sleeps performed between attempts in order, and whether the
run ended in a returned response or a raised exception. -/
structure RetryResult where
  attempts : Nat
  sleeps : List Nat
  ok : Bool
deriving DecidableEq

/-- The attempt loop of the retry helper: `attempt` is the 0-based index
of the current attempt, `remaining` the retries still allowed after this
attempt. No sleep is performed when no retry follows; a non-429 4xx never
retries regardless of the remaining budget. -/
def retryGo (responses : Nat → ApiOutcome) (retry_delay : Nat) :
    Nat → Nat → List Nat → RetryResult
  | attempt, 0, sleeps =>
    match responses attempt with
    | ApiOutcome.success => { attempts := attempt + 1, sleeps := sleeps, ok := true }
    | _ => { attempts := attempt + 1, sleeps := sleeps, ok := false }
  | attempt, rem + 1, sleeps =>
    match responses attempt with
    | ApiOutcome.success => { attempts := attempt + 1, sleeps := sleeps, ok := true }
    | ApiOutcome.clientError _ => { attempts := attempt + 1, sleeps := sleeps, ok := false }
    | ApiOutcome.rateLimited ra => retryGo responses retry_delay (attempt + 1) rem (sleeps ++ [ra])
    | ApiOutcome.timeout =>
      retryGo responses retry_delay (attempt + 1) rem (sleeps ++ [retry_delay])
    | ApiOutcome.serverError _ =>
      retryGo responses retry_delay (attempt + 1) rem (sleeps ++ [retry_delay])

/-- Modelled from the spec: `api_request_with_retry` is imported by
`src/tests/test_api_retry.py` from `etl.etl_base` but is absent from the
source tree; this definition follows spec §6 (Source API retry contract)
and the test expectations — a 429 sleeps the `Retry-After` value and
retries, a timeout or 5xx sleeps `retry_delay` and retries, both within a
total budget of `max_retries` attempts, and any other 4xx raises at once
without retrying. -/
def api_request_with_retry (responses : Nat → ApiOutcome) (max_retries retry_delay : Nat) :
    RetryResult :=
  retryGo responses retry_delay 0 (max_retries - 1) []

/-- The spec's statement of the rate_paid coercion, written from its words
(spec §8: for currency-style values "the transformed value equals the
leading numeric token parsed as float"): take the leading
whitespace-separated token and parse it as a float, null when there is no
token or it does not parse. This definition exists only to be compared
with the code-derived `applyCoercion`. -/
def leadingTokenFloatSpec (s : String) : Value :=
  match pySplit s with
  | [] => Value.none
  | t :: _ =>
    match parseDecimal? t with
    | Option.some q => Value.float q
    | Option.none => Value.none

/-- All column names `_transform_parent` writes, in write order: the
initial `region_code`, the field-mapping targets, the nested-group
targets flattened, and `synced_at`. -/
def transformTargets (cfg : EntityConfig) : List String :=
  "region_code" :: (cfg.fields_mapping.map Prod.snd
    ++ cfg.nested_fields.flatMap (fun g => g.2.map Prod.snd) ++ ["synced_at"])

/-! ## Helper lemmas

Lemmas about the dedup loop, shared by the parent-side and the
child-side claims. -/

theorem dedupLoop_sublist (ks : List String) :
    ∀ (l : List Record) (seen : List (List Value)),
      (dedupLoop ks l seen).1.Sublist l := by
  intro l
  induction l with
  | nil => intro seen; simp [dedupLoop]
  | cons r rest ih =>
    intro seen
    by_cases h : keyTuple ks r ∈ seen
    · simp only [dedupLoop, if_pos h]
      exact List.Sublist.cons r (ih seen)
    · simp only [dedupLoop, if_neg h]
      exact List.Sublist.cons₂ r (ih (keyTuple ks r :: seen))

theorem dedupLoop_not_seen (ks : List String) :
    ∀ (l : List Record) (seen : List (List Value)) (r : Record),
      r ∈ (dedupLoop ks l seen).1 → keyTuple ks r ∉ seen := by
  intro l
  induction l with
  | nil => intro seen r h; simp [dedupLoop] at h
  | cons x rest ih =>
    intro seen r h
    by_cases hx : keyTuple ks x ∈ seen
    · simp only [dedupLoop, if_pos hx] at h
      exact ih seen r h
    · simp only [dedupLoop, if_neg hx] at h
      rcases List.mem_cons.mp h with h1 | h2
      · subst h1; exact hx
      · intro hc
        exact ih (keyTuple ks x :: seen) r h2 (List.mem_cons_of_mem _ hc)

theorem dedupLoop_keys_nodup (ks : List String) :
    ∀ (l : List Record) (seen : List (List Value)),
      ((dedupLoop ks l seen).1.map (keyTuple ks)).Nodup := by
  intro l
  induction l with
  | nil => intro seen; simp [dedupLoop]
  | cons x rest ih =>
    intro seen
    by_cases hx : keyTuple ks x ∈ seen
    · simp only [dedupLoop, if_pos hx]
      exact ih seen
    · simp only [dedupLoop, if_neg hx, List.map_cons, List.nodup_cons]
      constructor
      · intro hc
        rcases List.mem_map.mp hc with ⟨r, hr, hkey⟩
        have := dedupLoop_not_seen ks rest (keyTuple ks x :: seen) r hr
        exact this (by rw [hkey]; exact List.mem_cons_self _ _)
      · exact ih (keyTuple ks x :: seen)

theorem dedupLoop_covers (ks : List String) :
    ∀ (l : List Record) (seen : List (List Value)) (r : Record),
      r ∈ l → keyTuple ks r ∈ seen ∨ keyTuple ks r ∈ (dedupLoop ks l seen).1.map (keyTuple ks) := by
  intro l
  induction l with
  | nil => intro seen r h; simp at h
  | cons x rest ih =>
    intro seen r h
    by_cases hx : keyTuple ks x ∈ seen
    · simp only [dedupLoop, if_pos hx]
      rcases List.mem_cons.mp h with h1 | h2
      · subst h1; exact Or.inl hx
      · exact ih seen r h2
    · simp only [dedupLoop, if_neg hx, List.map_cons]
      rcases List.mem_cons.mp h with h1 | h2
      · subst h1
        exact Or.inr (List.mem_cons_self _ _)
      · rcases ih (keyTuple ks x :: seen) r h2 with hs | ho
        · rcases List.mem_cons.mp hs with h3 | h4
          · exact Or.inr (by rw [h3]; exact List.mem_cons_self _ _)
          · exact Or.inl h4
        · exact Or.inr (List.mem_cons_of_mem _ ho)

theorem dedupLoop_first_wins (ks : List String) :
    ∀ (l : List Record) (seen : List (List Value)) (r : Record),
      r ∈ (dedupLoop ks l seen).1 →
      l.find? (fun x => keyTuple ks x = keyTuple ks r) = Option.some r := by
  intro l
  induction l with
  | nil => intro seen r h; simp [dedupLoop] at h
  | cons x rest ih =>
    intro seen r h
    by_cases hx : keyTuple ks x ∈ seen
    · simp only [dedupLoop, if_pos hx] at h
      have hne : keyTuple ks x ≠ keyTuple ks r := by
        intro hc
        exact dedupLoop_not_seen ks rest seen r h (hc ▸ hx)
      rw [List.find?_cons_of_neg _ (by simpa using hne)]
      exact ih seen r h
    · simp only [dedupLoop, if_neg hx] at h
      rcases List.mem_cons.mp h with h1 | h2
      · subst h1
        exact List.find?_cons_of_pos _ (by simp)
      · have hne : keyTuple ks x ≠ keyTuple ks r := by
          intro hc
          have := dedupLoop_not_seen ks rest (keyTuple ks x :: seen) r h2
          exact this (hc ▸ List.mem_cons_self _ _)
        rw [List.find?_cons_of_neg _ (by simpa using hne)]
        exact ih (keyTuple ks x :: seen) r h2

theorem dedupLoop_length (ks : List String) :
    ∀ (l : List Record) (seen : List (List Value)),
      (dedupLoop ks l seen).1.length + (dedupLoop ks l seen).2 = l.length := by
  intro l
  induction l with
  | nil => intro seen; simp [dedupLoop]
  | cons x rest ih =>
    intro seen
    by_cases hx : keyTuple ks x ∈ seen
    · simp only [dedupLoop, if_pos hx, List.length_cons]
      have := ih seen
      omega
    · simp only [dedupLoop, if_neg hx, List.length_cons]
      have := ih (keyTuple ks x :: seen)
      omega

/-! Lemmas about the dict primitives. -/

theorem dget_dset_self (r : Record) (k : String) (v : Value) : dget (dset r k v) k = v := by
  induction r with
  | nil => simp [dset, dget, dgetD]
  | cons p rest ih =>
    by_cases h : p.1 = k
    · simp [dset, h, dget, dgetD]
    · simp only [dset, if_neg h]
      simp only [dget, dgetD, if_neg h] at ih ⊢
      exact ih

theorem dget_dset_ne (r : Record) (k : String) (v : Value) (k2 : String) (h : k2 ≠ k) :
    dget (dset r k v) k2 = dget r k2 := by
  have hne : ¬ (k = k2) := fun hc => h hc.symm
  induction r with
  | nil => simp [dset, dget, dgetD, hne]
  | cons p rest ih =>
    by_cases hp : p.1 = k
    · have hp2 : ¬ (p.1 = k2) := by rw [hp]; exact hne
      simp only [dset, if_pos hp]
      simp only [dget, dgetD, if_neg hne, if_neg hp2]
    · simp only [dset, if_neg hp]
      by_cases hp2 : p.1 = k2
      · simp only [dget, dgetD, if_pos hp2]
      · simp only [dget, dgetD, if_neg hp2] at ih ⊢
        exact ih

theorem dmem_dset_ne (r : Record) (k : String) (v : Value) (k2 : String) (h : k2 ≠ k) :
    dmem (dset r k v) k2 = dmem r k2 := by
  have hne : ¬ (k = k2) := fun hc => h hc.symm
  induction r with
  | nil => simp [dset, dmem, hne]
  | cons p rest ih =>
    by_cases hp : p.1 = k
    · have hp2 : ¬ (p.1 = k2) := by rw [hp]; exact hne
      simp only [dset, if_pos hp, dmem, if_neg hne, if_neg hp2]
    · simp only [dset, if_neg hp, dmem, ih]

theorem dmem_dremove_self (r : Record) (k : String) : dmem (dremove r k) k = false := by
  induction r with
  | nil => simp [dremove, dmem]
  | cons p rest ih =>
    simp only [dremove, List.filter_cons] at ih ⊢
    by_cases hp : p.1 = k
    · rw [if_neg (by simp [hp])]
      exact ih
    · rw [if_pos (by simp [hp])]
      simp only [dmem, if_neg hp]
      exact ih

theorem dmem_dremove_ne (r : Record) (k k2 : String) (h : k2 ≠ k) :
    dmem (dremove r k) k2 = dmem r k2 := by
  induction r with
  | nil => simp [dremove, dmem]
  | cons p rest ih =>
    simp only [dremove, List.filter_cons] at ih ⊢
    by_cases hp : p.1 = k
    · have hp2 : ¬ (p.1 = k2) := by rw [hp]; exact fun hc => h hc.symm
      rw [if_neg (by simp [hp])]
      simp only [dmem, if_neg hp2]
      exact ih
    · rw [if_pos (by simp [hp])]
      simp only [dmem, ih]

theorem dget_dremove_ne (r : Record) (k k2 : String) (h : k2 ≠ k) :
    dget (dremove r k) k2 = dget r k2 := by
  induction r with
  | nil => simp [dremove, dget, dgetD]
  | cons p rest ih =>
    simp only [dremove, List.filter_cons] at ih ⊢
    by_cases hp : p.1 = k
    · have hp2 : ¬ (p.1 = k2) := by rw [hp]; exact fun hc => h hc.symm
      rw [if_neg (by simp [hp])]
      simp only [dget, dgetD, if_neg hp2]
      exact ih
    · rw [if_pos (by simp [hp])]
      by_cases hp2 : p.1 = k2
      · simp only [dget, dgetD, if_pos hp2]
      · simp only [dget, dgetD, if_neg hp2] at ih ⊢
        exact ih

theorem dmem_dremove_of_false (r : Record) (k k2 : String) (h : dmem r k2 = false) :
    dmem (dremove r k) k2 = false := by
  by_cases hk : k2 = k
  · rw [hk]; exact dmem_dremove_self r k
  · rw [dmem_dremove_ne r k k2 hk]; exact h

theorem dget_eq_none_of_dmem_false (r : Record) (k : String) (h : dmem r k = false) :
    dget r k = Value.none := by
  induction r with
  | nil => simp [dget, dgetD]
  | cons p rest ih =>
    simp only [dmem] at h
    by_cases hp : p.1 = k
    · rw [if_pos hp] at h
      exact absurd h (by simp)
    · rw [if_neg hp] at h
      simp only [dget, dgetD, if_neg hp] at ih ⊢
      exact ih h

/-! Per-row lemmas about the FK-resolution UPDATE steps. -/

theorem resRowMatch_step_false (region : String) (props : List PropRow) (t : ResRow) :
    resRowMatch region props (resRowStep region props t) = false := by
  unfold resRowStep
  by_cases hg : t.region_code = region ∧ t.property_pk = Option.none
  · rw [if_pos hg]
    cases hfind : props.find?
        (fun p => sqlEq t.property_id p.property_id ∧ p.region_code = t.region_code) with
    | some p =>
      simp only [resRowMatch, decide_eq_false_iff_not]
      rintro ⟨-, h2, -⟩
      exact Option.noConfusion h2
    | none =>
      simp only [resRowMatch, decide_eq_false_iff_not]
      rintro ⟨-, -, h3⟩
      rw [hfind] at h3
      exact Bool.noConfusion h3
  · rw [if_neg hg]
    simp only [resRowMatch, decide_eq_false_iff_not]
    exact fun hc => hg ⟨hc.1, hc.2.1⟩

theorem resRowStep_eq_self_of_not_match (region : String) (props : List PropRow) (t : ResRow)
    (h : resRowMatch region props t = false) : resRowStep region props t = t := by
  unfold resRowStep
  by_cases hg : t.region_code = region ∧ t.property_pk = Option.none
  · rw [if_pos hg]
    cases hfind : props.find?
        (fun p => sqlEq t.property_id p.property_id ∧ p.region_code = t.region_code) with
    | some p =>
      exfalso
      simp only [resRowMatch, decide_eq_false_iff_not] at h
      exact h ⟨hg.1, hg.2, by rw [hfind]; rfl⟩
    | none => rfl
  · rw [if_neg hg]

theorem taskPropMatch_step_false (region : String) (props : List PropRow) (t : TaskRow) :
    taskPropMatch region props (taskPropStep region props t) = false := by
  unfold taskPropStep
  by_cases hg : t.region_code = region ∧ t.property_pk = Option.none
  · rw [if_pos hg]
    cases hfind : props.find?
        (fun p => sqlEq t.home_id p.property_id ∧ p.region_code = t.region_code) with
    | some p =>
      simp only [taskPropMatch, decide_eq_false_iff_not]
      rintro ⟨-, h2, -⟩
      exact Option.noConfusion h2
    | none =>
      simp only [taskPropMatch, decide_eq_false_iff_not]
      rintro ⟨-, -, h3⟩
      rw [hfind] at h3
      exact Bool.noConfusion h3
  · rw [if_neg hg]
    simp only [taskPropMatch, decide_eq_false_iff_not]
    exact fun hc => hg ⟨hc.1, hc.2.1⟩

theorem taskPropStep_eq_self_of_not_match (region : String) (props : List PropRow) (t : TaskRow)
    (h : taskPropMatch region props t = false) : taskPropStep region props t = t := by
  unfold taskPropStep
  by_cases hg : t.region_code = region ∧ t.property_pk = Option.none
  · rw [if_pos hg]
    cases hfind : props.find?
        (fun p => sqlEq t.home_id p.property_id ∧ p.region_code = t.region_code) with
    | some p =>
      exfalso
      simp only [taskPropMatch, decide_eq_false_iff_not] at h
      exact h ⟨hg.1, hg.2, by rw [hfind]; rfl⟩
    | none => rfl
  · rw [if_neg hg]

theorem taskResMatch_step_false (region : String) (resvs : List ResRow) (t : TaskRow) :
    taskResMatch region resvs (taskResStep region resvs t) = false := by
  unfold taskResStep
  by_cases hg : t.region_code = region ∧ t.reservation_pk = Option.none ∧
      t.linked_reservation_id ≠ Value.none
  · rw [if_pos hg]
    cases hfind : resvs.find?
        (fun r => sqlEq t.linked_reservation_id r.reservation_id ∧
          r.region_code = t.region_code) with
    | some r =>
      simp only [taskResMatch, decide_eq_false_iff_not]
      rintro ⟨-, h2, -⟩
      exact Option.noConfusion h2
    | none =>
      simp only [taskResMatch, decide_eq_false_iff_not]
      rintro ⟨-, -, -, h4⟩
      rw [hfind] at h4
      exact Bool.noConfusion h4
  · rw [if_neg hg]
    simp only [taskResMatch, decide_eq_false_iff_not]
    exact fun hc => hg ⟨hc.1, hc.2.1, hc.2.2.1⟩

theorem taskResStep_eq_self_of_not_match (region : String) (resvs : List ResRow) (t : TaskRow)
    (h : taskResMatch region resvs t = false) : taskResStep region resvs t = t := by
  unfold taskResStep
  by_cases hg : t.region_code = region ∧ t.reservation_pk = Option.none ∧
      t.linked_reservation_id ≠ Value.none
  · rw [if_pos hg]
    cases hfind : resvs.find?
        (fun r => sqlEq t.linked_reservation_id r.reservation_id ∧
          r.region_code = t.region_code) with
    | some r =>
      exfalso
      simp only [taskResMatch, decide_eq_false_iff_not] at h
      exact h ⟨hg.1, hg.2.1, hg.2.2, by rw [hfind]; rfl⟩
    | none => rfl
  · rw [if_neg hg]

theorem taskResStep_preserves (region : String) (resvs : List ResRow) (t : TaskRow) :
    (taskResStep region resvs t).region_code = t.region_code
    ∧ (taskResStep region resvs t).property_pk = t.property_pk
    ∧ (taskResStep region resvs t).home_id = t.home_id := by
  unfold taskResStep
  by_cases hg : t.region_code = region ∧ t.reservation_pk = Option.none ∧
      t.linked_reservation_id ≠ Value.none
  · rw [if_pos hg]
    cases resvs.find?
        (fun r => sqlEq t.linked_reservation_id r.reservation_id ∧
          r.region_code = t.region_code) with
    | some r => exact ⟨rfl, rfl, rfl⟩
    | none => exact ⟨rfl, rfl, rfl⟩
  · rw [if_neg hg]
    exact ⟨rfl, rfl, rfl⟩

theorem taskPropMatch_resStep (region region2 : String) (props : List PropRow)
    (resvs : List ResRow) (t : TaskRow) :
    taskPropMatch region props (taskResStep region2 resvs t) = taskPropMatch region props t := by
  have h := taskResStep_preserves region2 resvs t
  simp only [taskPropMatch, h.1, h.2.1, h.2.2]

theorem taskPropStep_resStep_eq (region region2 : String) (props : List PropRow)
    (resvs : List ResRow) (t : TaskRow) :
    taskPropStep region props (taskResStep region2 resvs (taskPropStep region props t))
      = taskResStep region2 resvs (taskPropStep region props t) := by
  apply taskPropStep_eq_self_of_not_match
  rw [taskPropMatch_resStep]
  exact taskPropMatch_step_false region props t

/-- C8: running the parent-to-parent FK resolution a second time against
the same data is a no-op — the reservations UPDATE and both tasks UPDATEs
report zero affected rows and leave the table unchanged, because each
statement only touches rows whose FK column is still null. -/
theorem resolve_parent_fks_idempotent (region : String) (props : List PropRow)
    (resvs : List ResRow) (tasks : List TaskRow) :
    resolveReservationFks region props (resolveReservationFks region props resvs).1
      = ((resolveReservationFks region props resvs).1, 0)
    ∧ resolveTaskFks region props resvs (resolveTaskFks region props resvs tasks).1
      = ((resolveTaskFks region props resvs tasks).1, 0, 0) := by
  have hstep2 : ∀ t, taskPropStep region props (taskResStep region resvs
      (taskPropStep region props t)) = taskResStep region resvs (taskPropStep region props t) :=
    fun t => taskPropStep_resStep_eq region region props resvs t
  constructor
  · unfold resolveReservationFks
    refine Prod.ext ?_ ?_
    · show (List.map (resRowStep region props) resvs).map (resRowStep region props)
        = List.map (resRowStep region props) resvs
      simp only [List.map_map]
      apply List.map_congr_left
      intro t _
      exact resRowStep_eq_self_of_not_match region props _ (resRowMatch_step_false region props t)
    · show (List.map (resRowStep region props) resvs).countP (resRowMatch region props) = 0
      rw [List.countP_eq_zero]
      intro a ha
      rcases List.mem_map.mp ha with ⟨t, _, rfl⟩
      simp [resRowMatch_step_false region props t]
  · unfold resolveTaskFks
    have hmap1 : ((tasks.map (taskPropStep region props)).map
          (taskResStep region resvs)).map (taskPropStep region props)
        = (tasks.map (taskPropStep region props)).map (taskResStep region resvs) := by
      simp only [List.map_map]
      apply List.map_congr_left
      intro t _
      exact hstep2 t
    refine Prod.ext ?_ (Prod.ext ?_ ?_)
    · show (((tasks.map (taskPropStep region props)).map
            (taskResStep region resvs)).map (taskPropStep region props)).map
          (taskResStep region resvs)
        = (tasks.map (taskPropStep region props)).map (taskResStep region resvs)
      rw [hmap1]
      simp only [List.map_map]
      apply List.map_congr_left
      intro t _
      exact taskResStep_eq_self_of_not_match region resvs _
        (taskResMatch_step_false region resvs (taskPropStep region props t))
    · show ((tasks.map (taskPropStep region props)).map (taskResStep region resvs)).countP
          (taskPropMatch region props) = 0
      rw [List.countP_eq_zero]
      intro a ha
      simp only [List.map_map] at ha
      rcases List.mem_map.mp ha with ⟨t, _, rfl⟩
      simp only [Function.comp]
      rw [taskPropMatch_resStep]
      simp [taskPropMatch_step_false region props t]
    · show (((tasks.map (taskPropStep region props)).map
            (taskResStep region resvs)).map (taskPropStep region props)).countP
          (taskResMatch region resvs) = 0
      rw [hmap1, List.countP_eq_zero]
      intro a ha
      simp only [List.map_map] at ha
      rcases List.mem_map.mp ha with ⟨t, _, rfl⟩
      simp only [Function.comp]
      simp [taskResMatch_step_false region resvs (taskPropStep region props t)]

/-! The batch-driver fold, characterized. -/

theorem runFold_spec (etlRun : String → String → Except String Unit) :
    ∀ (L : List (String × String)) (acc : Nat × Nat × List AlertEvent),
      L.foldl (runStep etlRun) acc
        = (acc.1 + L.countP (fun p => ¬ pairFailed etlRun p),
           acc.2.1 + L.countP (pairFailed etlRun),
           acc.2.2 ++ L.flatMap (pairAlerts etlRun)) := by
  intro L
  induction L with
  | nil => intro acc; simp
  | cons p L ih =>
    intro acc
    rw [List.foldl_cons, ih]
    cases hco : etlRun p.1 p.2 with
    | ok u =>
      simp only [runStep, run_single_etl, hco, if_pos rfl]
      simp only [List.countP_cons, List.flatMap_cons, pairFailed, pairAlerts, run_single_etl, hco]
      refine Prod.ext ?_ (Prod.ext ?_ ?_) <;> simp <;> omega
    | error e =>
      simp only [runStep, run_single_etl, hco]
      simp only [List.countP_cons, List.flatMap_cons, pairFailed, pairAlerts, run_single_etl, hco]
      refine Prod.ext ?_ (Prod.ext ?_ ?_) <;> simp <;> omega

/-- C3: the batch driver runs every (tenant, entity) pair of the selected
Cartesian product — a raised exception in one pair is caught inside
`run_single_etl`, emits one failure alert, is counted, and does not stop
the remaining pairs; the driver returns the number of failed pairs, and a
summary alert appears among the emitted alerts if and only if at least one
pair failed. -/
theorem run_etl_isolates_failures (regions entities : List String)
    (etlRun : String → String → Except String Unit) :
    (run_etl regions entities etlRun).1
        = (batchPairs regions entities).countP (pairFailed etlRun)
    ∧ (run_etl regions entities etlRun).2.1 + (run_etl regions entities etlRun).1
        = (batchPairs regions entities).length
    ∧ (∀ r e msg, AlertEvent.failure r e msg ∈ (run_etl regions entities etlRun).2.2 ↔
        ((r, e) ∈ batchPairs regions entities ∧ etlRun r e = Except.error msg))
    ∧ ((∃ t s f, AlertEvent.summary t s f ∈ (run_etl regions entities etlRun).2.2) ↔
        0 < (run_etl regions entities etlRun).1) := by
  have hfold := runFold_spec etlRun (batchPairs regions entities) (0, 0, [])
  have hres : run_etl regions entities etlRun
      = ((batchPairs regions entities).countP (pairFailed etlRun),
         (batchPairs regions entities).countP (fun p => ¬ pairFailed etlRun p),
         (batchPairs regions entities).flatMap (pairAlerts etlRun)
           ++ send_success_summary (batchPairs regions entities).length
                ((batchPairs regions entities).countP (fun p => ¬ pairFailed etlRun p))
                ((batchPairs regions entities).countP (pairFailed etlRun))) := by
    unfold run_etl
    dsimp only
    rw [hfold]
    simp
  rw [hres]
  refine ⟨rfl, ?_, ?_, ?_⟩
  · have h1 : ∀ (L : List (String × String)),
        L.countP (fun p => ¬ pairFailed etlRun p) + L.countP (pairFailed etlRun) = L.length := by
      intro L
      induction L with
      | nil => simp
      | cons p L ih =>
        by_cases hp : pairFailed etlRun p
        · simp only [List.countP_cons, hp] at ih ⊢
          simp at ih ⊢
          omega
        · simp only [List.countP_cons] at ih ⊢
          simp [hp] at ih ⊢
          omega
    exact h1 _
  · intro r e msg
    simp only [List.mem_append]
    constructor
    · rintro (hin | hin)
      · rcases List.mem_flatMap.mp hin with ⟨p, hp, hal⟩
        unfold pairAlerts run_single_etl at hal
        cases hco : etlRun p.1 p.2 with
        | ok u => rw [hco] at hal; simp at hal
        | error e2 =>
          rw [hco] at hal
          simp only [List.mem_singleton] at hal
          cases hal
          exact ⟨hp, hco⟩
      · unfold send_success_summary at hin
        by_cases hz : (batchPairs regions entities).countP (pairFailed etlRun) = 0
        · rw [if_pos hz] at hin; simp at hin
        · rw [if_neg hz] at hin; simp at hin
    · rintro ⟨hp, hco⟩
      left
      apply List.mem_flatMap.mpr
      refine ⟨(r, e), hp, ?_⟩
      unfold pairAlerts run_single_etl
      rw [hco]
      simp
  · constructor
    · rintro ⟨t, s, f, hin⟩
      simp only [List.mem_append] at hin
      rcases hin with hin | hin
      · exfalso
        rcases List.mem_flatMap.mp hin with ⟨p, _, hal⟩
        unfold pairAlerts run_single_etl at hal
        cases hco : etlRun p.1 p.2 with
        | ok u => rw [hco] at hal; simp at hal
        | error e2 => rw [hco] at hal; simp at hal
      · unfold send_success_summary at hin
        by_cases hz : (batchPairs regions entities).countP (pairFailed etlRun) = 0
        · rw [if_pos hz] at hin; simp at hin
        · omega
    · intro hpos
      refine ⟨(batchPairs regions entities).length,
        (batchPairs regions entities).countP (fun p => ¬ pairFailed etlRun p),
        (batchPairs regions entities).countP (pairFailed etlRun), ?_⟩
      simp only [List.mem_append]
      right
      unfold send_success_summary
      rw [if_neg (by omega)]
      simp

/-! The retry loop on an all-transient response sequence. -/

theorem retryGo_transient (responses : Nat → ApiOutcome) (rd : Nat)
    (h : ∀ i, responses i = ApiOutcome.timeout ∨ ∃ c, responses i = ApiOutcome.serverError c) :
    ∀ (rem attempt : Nat) (sleeps : List Nat),
      retryGo responses rd attempt rem sleeps
        = { attempts := attempt + rem + 1, sleeps := sleeps ++ List.replicate rem rd,
            ok := false } := by
  intro rem
  induction rem with
  | zero =>
    intro attempt sleeps
    rcases h attempt with ht | ⟨c, hs⟩
    · rw [retryGo, ht]
      simp
    · rw [retryGo, hs]
      simp
  | succ rem ih =>
    intro attempt sleeps
    rcases h attempt with ht | ⟨c, hs⟩
    · rw [retryGo, ht]
      dsimp only
      rw [ih]
      simp only [RetryResult.mk.injEq, List.replicate_succ]
      refine ⟨by omega, by simp, trivial⟩
    · rw [retryGo, hs]
      dsimp only
      rw [ih]
      simp only [RetryResult.mk.injEq, List.replicate_succ]
      refine ⟨by omega, by simp, trivial⟩

/-- C4: the retry helper's contract (spec-modelled, the function exists
only through its tests): a 429 response causes exactly one retry after
sleeping the `Retry-After` value; a run of timeouts or 5xx responses is
retried with the fixed delay until the attempt budget is spent, raising
after `max_retries` attempts; a non-429 4xx response raises on the first
attempt with no retry and no sleep. -/
theorem api_retry_behaviour (r1 r2 r3 : Nat → ApiOutcome) (mr rd ra c3 : Nat)
    (h1a : r1 0 = ApiOutcome.rateLimited ra) (h1b : r1 1 = ApiOutcome.success)
    (hmr2 : 2 ≤ mr)
    (h2 : ∀ i, r2 i = ApiOutcome.timeout ∨ ∃ c, r2 i = ApiOutcome.serverError c)
    (h3 : r3 0 = ApiOutcome.clientError c3) :
    api_request_with_retry r1 mr rd = { attempts := 2, sleeps := [ra], ok := true }
    ∧ api_request_with_retry r2 mr rd
        = { attempts := mr, sleeps := List.replicate (mr - 1) rd, ok := false }
    ∧ api_request_with_retry r3 mr rd = { attempts := 1, sleeps := [], ok := false } := by
  refine ⟨?_, ?_, ?_⟩
  · unfold api_request_with_retry
    obtain ⟨k, hk⟩ : ∃ k, mr - 1 = k + 1 := ⟨mr - 2, by omega⟩
    rw [hk, retryGo, h1a]
    show retryGo r1 rd (0 + 1) k ([] ++ [ra]) = _
    cases k with
    | zero =>
      rw [retryGo, h1b]
      simp
    | succ k2 =>
      rw [retryGo, h1b]
      simp
  · unfold api_request_with_retry
    rw [retryGo_transient r2 rd h2]
    simp only [RetryResult.mk.injEq]
    refine ⟨by omega, rfl, trivial⟩
  · unfold api_request_with_retry
    cases hrem : mr - 1 with
    | zero =>
      rw [retryGo, h3]
    | succ k =>
      rw [retryGo, h3]

/-! The pagination loop over a prefix of non-empty object pages. -/

theorem pageConcat_snoc (pages : Nat → Body) :
    ∀ (n start : Nat),
      pageConcat pages start (n + 1) = pageConcat pages start n ++ bodyResults (pages (start + n)) := by
  intro n
  induction n with
  | zero => intro start; simp [pageConcat]
  | succ n ih =>
    intro start
    have h1 : pageConcat pages start (n + 1 + 1)
        = bodyResults (pages start) ++ pageConcat pages (start + 1) (n + 1) := rfl
    rw [h1, ih (start + 1)]
    have h2 : pageConcat pages start (n + 1)
        = bodyResults (pages start) ++ pageConcat pages (start + 1) n := rfl
    rw [h2, List.append_assoc]
    have h3 : start + 1 + n = start + (n + 1) := by omega
    rw [h3]

theorem extractLoop_skip (pages : Nat → Body) :
    ∀ (cnt start fuel : Nat) (acc : List Value),
      (∀ i, start ≤ i → i < start + cnt →
        bodyIsArr (pages i) = false ∧ bodyResults (pages i) ≠ []) →
      cnt ≤ fuel →
      extractLoop pages fuel start acc
        = extractLoop pages (fuel - cnt) (start + cnt) (acc ++ pageConcat pages start cnt) := by
  intro cnt
  induction cnt with
  | zero =>
    intro start fuel acc _ _
    simp [pageConcat]
  | succ cnt ih =>
    intro start fuel acc hmid hfuel
    obtain ⟨f, rfl⟩ : ∃ f, fuel = f + 1 := ⟨fuel - 1, by omega⟩
    have hstart := hmid start (Nat.le_refl start) (by omega)
    rw [extractLoop]
    rw [if_neg (by simpa using hstart.2), if_neg (by simp [hstart.1])]
    rw [ih (start + 1) f (acc ++ bodyResults (pages start))
      (fun i h1 h2 => hmid i (by omega) (by omega)) (by omega)]
    have hc : pageConcat pages start (cnt + 1)
        = bodyResults (pages start) ++ pageConcat pages (start + 1) cnt := rfl
    rw [hc, ← List.append_assoc]
    have e1 : f + 1 - (cnt + 1) = f - cnt := by omega
    have e2 : start + (cnt + 1) = start + 1 + cnt := by omega
    rw [e1, e2]

/-- C5: when every page before the first empty page is a non-empty
object page, standard-mode extraction terminates at that empty page and
returns the concatenation of the result lists of the pages before it, in
page order; and when page `K` is a non-empty direct JSON array (after
`K - 1` non-empty object pages), extraction terminates with that single
response appended, returning the concatenation through page `K`. -/
theorem extract_standard_pagination (pages1 pages2 : Nat → Body) (N K fuel1 fuel2 : Nat)
    (hN1 : 1 ≤ N) (hfuel1 : N ≤ fuel1)
    (hmid1 : ∀ i, 1 ≤ i → i < N → bodyIsArr (pages1 i) = false ∧ bodyResults (pages1 i) ≠ [])
    (hN : bodyResults (pages1 N) = [])
    (hK1 : 1 ≤ K) (hfuel2 : K ≤ fuel2)
    (hmid2 : ∀ i, 1 ≤ i → i < K → bodyIsArr (pages2 i) = false ∧ bodyResults (pages2 i) ≠ [])
    (hKarr : bodyIsArr (pages2 K) = true) (hKne : bodyResults (pages2 K) ≠ []) :
    extractStandard pages1 fuel1 = Option.some (pageConcat pages1 1 (N - 1))
    ∧ extractStandard pages2 fuel2 = Option.some (pageConcat pages2 1 K) := by
  constructor
  · unfold extractStandard
    rw [extractLoop_skip pages1 (N - 1) 1 fuel1 []
      (fun i h1 h2 => hmid1 i h1 (by omega)) (by omega)]
    have h1N : 1 + (N - 1) = N := by omega
    rw [h1N]
    obtain ⟨f, hf⟩ : ∃ f, fuel1 - (N - 1) = f + 1 := ⟨fuel1 - (N - 1) - 1, by omega⟩
    rw [hf, extractLoop]
    rw [if_pos hN]
    simp
  · unfold extractStandard
    rw [extractLoop_skip pages2 (K - 1) 1 fuel2 []
      (fun i h1 h2 => hmid2 i h1 (by omega)) (by omega)]
    have h1K : 1 + (K - 1) = K := by omega
    rw [h1K]
    obtain ⟨f, hf⟩ : ∃ f, fuel2 - (K - 1) = f + 1 := ⟨fuel2 - (K - 1) - 1, by omega⟩
    rw [hf, extractLoop]
    rw [if_neg (by simpa using hKne), if_pos hKarr]
    have : pageConcat pages2 1 K = pageConcat pages2 1 (K - 1) ++ bodyResults (pages2 K) := by
      obtain ⟨m, hm⟩ : ∃ m, K = m + 1 := ⟨K - 1, by omega⟩
      subst hm
      rw [pageConcat_snoc pages2 m 1]
      have e3 : m + 1 - 1 = m := by omega
      have e4 : 1 + m = m + 1 := by omega
      rw [e3, e4]
    rw [this]
    simp

/-- Witness for the retry contract at a concrete budget of 3 attempts
with a 5-second delay: one 429 with `Retry-After: 2` then success; three
timeouts; one 400. -/
theorem api_retry_behaviour_witness :
    api_request_with_retry
        (fun i => if i = 0 then ApiOutcome.rateLimited 2 else ApiOutcome.success) 3 5
      = { attempts := 2, sleeps := [2], ok := true }
    ∧ api_request_with_retry (fun _ => ApiOutcome.timeout) 3 5
      = { attempts := 3, sleeps := List.replicate 2 5, ok := false }
    ∧ api_request_with_retry (fun _ => ApiOutcome.clientError 400) 3 5
      = { attempts := 1, sleeps := [], ok := false } :=
  api_retry_behaviour
    (fun i => if i = 0 then ApiOutcome.rateLimited 2 else ApiOutcome.success)
    (fun _ => ApiOutcome.timeout)
    (fun _ => ApiOutcome.clientError 400)
    3 5 2 400 rfl rfl (by decide) (fun _ => Or.inl rfl) rfl

/-- Witness for the pagination contract on a two-page sequence (one
non-empty object page, then an empty page) and on an object page followed
by a direct-array page. -/
theorem extract_standard_pagination_witness :
    extractStandard (fun p => if p = 1 then Body.obj [Value.int 1] else Body.obj []) 5
      = Option.some
          (pageConcat (fun p => if p = 1 then Body.obj [Value.int 1] else Body.obj []) 1 1)
    ∧ extractStandard (fun p => if p = 1 then Body.obj [Value.int 1] else Body.arr [Value.int 2]) 5
      = Option.some
          (pageConcat (fun p => if p = 1 then Body.obj [Value.int 1] else Body.arr [Value.int 2])
            1 2) :=
  extract_standard_pagination
    (fun p => if p = 1 then Body.obj [Value.int 1] else Body.obj [])
    (fun p => if p = 1 then Body.obj [Value.int 1] else Body.arr [Value.int 2])
    2 2 5 5 (by decide) (by decide)
    (fun i h1 h2 => by
      have hi : i = 1 := by omega
      subst hi
      exact ⟨rfl, by decide⟩)
    (by decide) (by decide) (by decide)
    (fun i h1 h2 => by
      have hi : i = 1 := by omega
      subst hi
      exact ⟨rfl, by decide⟩)
    (by decide) (by decide)

/-- C1: the deduplication inside `transform` — over any raw-record list,
no two parent records returned by `transform` share the entity's
natural-key tuple; the output is a subsequence of the transformed parents
covering every natural-key tuple that occurs; each surviving record is
exactly the first record of the pre-deduplication list carrying its key
tuple (first-seen wins); and the reported duplicate count is the number of
dropped later occurrences. -/
theorem transform_dedup_first_seen_wins (cfg : EntityConfig) (entity_type region : String)
    (syncedAt : Value) (records : List Record) :
    ((transform cfg entity_type region syncedAt records).1.1.map
        (keyTuple cfg.natural_key)).Nodup
    ∧ (transform cfg entity_type region syncedAt records).1.1.Sublist
        (transformParents cfg region syncedAt records)
    ∧ (∀ r ∈ transformParents cfg region syncedAt records,
        keyTuple cfg.natural_key r
          ∈ (transform cfg entity_type region syncedAt records).1.1.map
              (keyTuple cfg.natural_key))
    ∧ (∀ r ∈ (transform cfg entity_type region syncedAt records).1.1,
        (transformParents cfg region syncedAt records).find?
          (fun x => keyTuple cfg.natural_key x = keyTuple cfg.natural_key r) = Option.some r)
    ∧ (transform cfg entity_type region syncedAt records).1.1.length
        + (transform cfg entity_type region syncedAt records).1.2
        = (transformParents cfg region syncedAt records).length := by
  have heq : (transform cfg entity_type region syncedAt records).1
      = dedupLoop cfg.natural_key (transformParents cfg region syncedAt records) [] := rfl
  rw [heq]
  refine ⟨dedupLoop_keys_nodup cfg.natural_key _ [],
    dedupLoop_sublist cfg.natural_key _ [], ?_, ?_, dedupLoop_length cfg.natural_key _ []⟩
  · intro r hr
    rcases dedupLoop_covers cfg.natural_key _ [] r hr with hs | ho
    · exact absurd hs (List.not_mem_nil _)
    · exact ho
  · intro r hr
    exact dedupLoop_first_wins cfg.natural_key _ [] r hr

/-- C9 counterexample: a task record with one element in its embedded
`supplies` array makes `transform` emit one (stub) record for the
configured `supplies` child table — the child list is not empty, so
transform does emit child records for a table outside the hand-mapped
names. -/
theorem supplies_children_emitted_counterexample :
    List.lookup "supplies"
        (transform tasksConfig "tasks" "nashville" (Value.str "ts")
          [[("id", Value.str "t1"),
            ("supplies", Value.list [Value.dict [("id", Value.int 7)]])]]).2
      = Option.some [[("region_code", Value.str "nashville"),
          ("_parent_api_id", Value.str "t1")]]
    ∧ ([[("region_code", Value.str "nashville"), ("_parent_api_id", Value.str "t1")]]
        : List (List (String × Value))) ≠ [] := by
  decide

/-- C9 (amended): for an embedded-array child table whose name is not one
of the hand-mapped identities, `transform` emits one stub record per array
element, carrying only `region_code` and the transient parent id — none of
the table's configured field mappings are applied, so no data columns are
ever populated. -/
theorem unmapped_children_stub_records (region entity_type api_id_field child_name : String)
    (cc : ChildConfig) (parent_record : Record)
    (hname : child_name ∉
      ["photos", "guests", "assignments", "comments", "requirements", "task_tags"]) :
    ∀ r ∈ transform_children region entity_type api_id_field child_name cc parent_record,
      r = [("region_code", Value.str region),
           ("_parent_api_id",
            Value.str (pyStr (dgetD parent_record api_id_field (Value.str ""))))] := by
  intro r hr
  simp only [List.mem_cons, List.not_mem_nil, or_false] at hname
  push_neg at hname
  obtain ⟨hn1, hn2, hn3, hn4, hn5, hn6⟩ := hname
  unfold transform_children at hr
  by_cases hapi : cc.requires_api_call
  · rw [if_pos hapi] at hr
    exact absurd hr (List.not_mem_nil r)
  · rw [if_neg hapi] at hr
    cases haf : cc.api_field with
    | none =>
      rw [haf] at hr
      exact absurd hr (List.not_mem_nil r)
    | some api_field =>
      rw [haf] at hr
      dsimp only at hr
      by_cases hemp : api_field = ""
      · rw [if_pos hemp] at hr
        exact absurd hr (List.not_mem_nil r)
      · rw [if_neg hemp] at hr
        cases hv : dgetD parent_record api_field (Value.list []) with
        | list child_list =>
          rw [hv] at hr
          rcases List.mem_map.mp hr with ⟨child, _, rfl⟩
          unfold transformChildElem
          dsimp only
          rw [if_neg (fun hc => hn1 hc.1), if_neg hn1, if_neg hn2, if_neg hn3, if_neg hn4,
            if_neg hn5, if_neg hn6]
          rfl
        | none => rw [hv] at hr; exact absurd hr (List.not_mem_nil r)
        | bool b => rw [hv] at hr; exact absurd hr (List.not_mem_nil r)
        | int n => rw [hv] at hr; exact absurd hr (List.not_mem_nil r)
        | float q => rw [hv] at hr; exact absurd hr (List.not_mem_nil r)
        | str s => rw [hv] at hr; exact absurd hr (List.not_mem_nil r)
        | dict d => rw [hv] at hr; exact absurd hr (List.not_mem_nil r)

/-- Witness: the amended C9 statement at the concrete supplies scenario. -/
theorem unmapped_children_stub_records_witness :
    [("region_code", Value.str "nashville"), ("_parent_api_id", Value.str "t1")]
      = [("region_code", Value.str "nashville"),
         ("_parent_api_id",
          Value.str (pyStr (dgetD
            [("id", Value.str "t1"), ("supplies", Value.list [Value.dict []])] "id"
            (Value.str ""))))] :=
  unmapped_children_stub_records "nashville" "tasks" "id" "supplies"
    { table_name := "task_supplies", api_field := Option.some "supplies", parent_fk := "task_pk",
      natural_key := ["task_pk", "supply_usage_id"] }
    [("id", Value.str "t1"), ("supplies", Value.list [Value.dict []])]
    (by decide)
    [("region_code", Value.str "nashville"), ("_parent_api_id", Value.str "t1")]
    (by decide)

/-- C10: the numeric coercions test truthiness before parsing, so a falsy
but well-formed raw value — the number 0 or the empty string — mapped to a
coordinate, company-id or rate_paid column is transformed to null, not to
0; shown both on the coercion block itself and through `_transform_parent`
with the real entity configurations. -/
theorem falsy_values_coerce_to_null :
    (applyCoercion "latitude_numeric" (Value.int 0) = Value.none
      ∧ applyCoercion "latitude_numeric" (Value.str "") = Value.none)
    ∧ (applyCoercion "longitude_numeric" (Value.int 0) = Value.none
      ∧ applyCoercion "longitude_numeric" (Value.str "") = Value.none)
    ∧ (applyCoercion "company_id" (Value.int 0) = Value.none
      ∧ applyCoercion "company_id" (Value.str "") = Value.none)
    ∧ (applyCoercion "rate_paid" (Value.int 0) = Value.none
      ∧ applyCoercion "rate_paid" (Value.str "") = Value.none)
    ∧ dget (transform_parent propertiesConfig "nashville" (Value.str "ts")
        [("latitude", Value.int 0)]) "latitude_numeric" = Value.none
    ∧ dget (transform_parent propertiesConfig "nashville" (Value.str "ts")
        [("company_id", Value.int 0)]) "company_id" = Value.none
    ∧ dget (transform_parent tasksConfig "nashville" (Value.str "ts")
        [("rate_paid", Value.int 0)]) "rate_paid" = Value.none := by
  decide

/-! Error analysis of the coercion bodies: every exception they can raise
is in the corresponding `except` list, so the conversion block is total. -/

theorem splitTokens_ne_nil : ∀ (cs : List Char), ∀ t ∈ splitTokens cs, t ≠ [] := by
  intro cs
  induction cs with
  | nil => intro t ht; simp [splitTokens] at ht
  | cons c rest ih =>
    intro t ht
    by_cases hsp : isPySpace c
    · rw [splitTokens, if_pos hsp] at ht
      exact ih t ht
    · rw [splitTokens, if_neg hsp] at ht
      cases hst : splitTokens rest with
      | nil =>
        rw [hst] at ht
        simp only [List.mem_singleton] at ht
        subst ht
        simp
      | cons t0 ts =>
        rw [hst] at ht
        dsimp only at ht
        cases rest with
        | nil => rw [splitTokens] at hst; exact absurd hst (by simp)
        | cons d rest2 =>
          dsimp only at ht
          by_cases hd : isPySpace d
          · rw [if_pos hd] at ht
            rcases List.mem_cons.mp ht with h1 | h2
            · subst h1; simp
            · exact ih t (hst ▸ h2)
          · rw [if_neg hd] at ht
            rcases List.mem_cons.mp ht with h1 | h2
            · subst h1; simp
            · exact ih t (hst ▸ List.mem_cons_of_mem t0 h2)

theorem pySplit_head_ne_empty (s : String) (t : String) (ts : List String)
    (h : pySplit s = t :: ts) : t ≠ "" := by
  unfold pySplit at h
  cases hst : splitTokens s.toList with
  | nil => rw [hst] at h; exact absurd h (by simp)
  | cons t0 ts0 =>
    rw [hst] at h
    simp only [List.map_cons, List.cons.injEq] at h
    have h0 : t0 ≠ [] := splitTokens_ne_nil s.toList t0 (hst ▸ List.mem_cons_self _ _)
    intro hc
    apply h0
    have hdata : (String.mk t0).data = ("" : String).data := by rw [h.1, hc]
    simpa using hdata

theorem pyFloat_error_mem (v : Value) (e : PyErr) (h : pyFloat v = Except.error e) :
    e = PyErr.valueError ∨ e = PyErr.typeError := by
  cases v with
  | str s =>
    unfold pyFloat at h
    dsimp only at h
    cases hp : parseDecimal? s with
    | some q => rw [hp] at h; exact absurd h (by simp)
    | none => rw [hp] at h; cases h; exact Or.inl rfl
  | float q => exact absurd h (by simp [pyFloat])
  | int n => exact absurd h (by simp [pyFloat])
  | bool b => exact absurd h (by simp [pyFloat])
  | none => cases h; exact Or.inr rfl
  | list l => cases h; exact Or.inr rfl
  | dict d => cases h; exact Or.inr rfl

theorem pyIntConv_error_mem (v : Value) (e : PyErr) (h : pyIntConv v = Except.error e) :
    e = PyErr.valueError ∨ e = PyErr.typeError := by
  cases v with
  | str s =>
    unfold pyIntConv at h
    dsimp only at h
    cases hp : parseIntStr? s with
    | some n => rw [hp] at h; exact absurd h (by simp)
    | none => rw [hp] at h; cases h; exact Or.inl rfl
  | float q => exact absurd h (by simp [pyIntConv])
  | int n => exact absurd h (by simp [pyIntConv])
  | bool b => exact absurd h (by simp [pyIntConv])
  | none => cases h; exact Or.inr rfl
  | list l => cases h; exact Or.inr rfl
  | dict d => cases h; exact Or.inr rfl

theorem coordBody_error_mem (v : Value) (e : PyErr) (h : coordBody v = Except.error e) :
    e = PyErr.valueError ∨ e = PyErr.typeError := by
  unfold coordBody at h
  by_cases ht : truthy v
  · rw [if_pos ht] at h
    cases hf : pyFloat v with
    | ok q => rw [hf] at h; exact absurd h (by simp)
    | error e2 =>
      rw [hf] at h
      cases h
      exact pyFloat_error_mem v e hf
  · rw [if_neg ht] at h
    exact absurd h (by simp)

theorem companyBody_error_mem (v : Value) (e : PyErr) (h : companyBody v = Except.error e) :
    e = PyErr.valueError ∨ e = PyErr.typeError := by
  unfold companyBody at h
  by_cases ht : truthy v
  · rw [if_pos ht] at h
    cases hf : pyIntConv v with
    | ok n => rw [hf] at h; exact absurd h (by simp)
    | error e2 =>
      rw [hf] at h
      cases h
      exact pyIntConv_error_mem v e hf
  · rw [if_neg ht] at h
    exact absurd h (by simp)

theorem ratePaidBody_error_mem (v : Value) (e : PyErr) (h : ratePaidBody v = Except.error e) :
    e = PyErr.valueError ∨ e = PyErr.typeError ∨ e = PyErr.indexError := by
  cases v with
  | str s =>
    unfold ratePaidBody at h
    dsimp only at h
    cases hsp : pySplit s with
    | nil => rw [hsp] at h; cases h; exact Or.inr (Or.inr rfl)
    | cons t ts =>
      rw [hsp] at h
      dsimp only at h
      by_cases ht : truthy (Value.str t)
      · rw [if_pos ht] at h
        cases hf : pyFloat (Value.str t) with
        | ok q => rw [hf] at h; exact absurd h (by simp)
        | error e2 =>
          rw [hf] at h
          cases h
          rcases pyFloat_error_mem _ e hf with h1 | h1
          · exact Or.inl h1
          · exact Or.inr (Or.inl h1)
      · rw [if_neg ht] at h
        exact absurd h (by simp)
  | none =>
    unfold ratePaidBody at h
    dsimp only at h
    rw [if_neg (by simp [truthy])] at h
    exact absurd h (by simp)
  | bool b =>
    unfold ratePaidBody at h
    dsimp only at h
    by_cases ht : truthy (Value.bool b)
    · rw [if_pos ht] at h
      cases hf : pyFloat (Value.bool b) with
      | ok q => rw [hf] at h; exact absurd h (by simp)
      | error e2 => exact absurd hf (by simp [pyFloat])
    · rw [if_neg ht] at h
      exact absurd h (by simp)
  | int n =>
    unfold ratePaidBody at h
    dsimp only at h
    by_cases ht : truthy (Value.int n)
    · rw [if_pos ht] at h
      cases hf : pyFloat (Value.int n) with
      | ok q => rw [hf] at h; exact absurd h (by simp)
      | error e2 => exact absurd hf (by simp [pyFloat])
    · rw [if_neg ht] at h
      exact absurd h (by simp)
  | float q =>
    unfold ratePaidBody at h
    dsimp only at h
    by_cases ht : truthy (Value.float q)
    · rw [if_pos ht] at h
      cases hf : pyFloat (Value.float q) with
      | ok q2 => rw [hf] at h; exact absurd h (by simp)
      | error e2 => exact absurd hf (by simp [pyFloat])
    · rw [if_neg ht] at h
      exact absurd h (by simp)
  | list l =>
    unfold ratePaidBody at h
    dsimp only at h
    by_cases ht : truthy (Value.list l)
    · rw [if_pos ht] at h
      cases hf : pyFloat (Value.list l) with
      | ok q => exact absurd hf (by simp [pyFloat])
      | error e2 =>
        rw [hf] at h
        cases h
        rcases pyFloat_error_mem _ e hf with h1 | h1
        · exact Or.inl h1
        · exact Or.inr (Or.inl h1)
    · rw [if_neg ht] at h
      exact absurd h (by simp)
  | dict d =>
    unfold ratePaidBody at h
    dsimp only at h
    by_cases ht : truthy (Value.dict d)
    · rw [if_pos ht] at h
      cases hf : pyFloat (Value.dict d) with
      | ok q => exact absurd hf (by simp [pyFloat])
      | error e2 =>
        rw [hf] at h
        cases h
        rcases pyFloat_error_mem _ e hf with h1 | h1
        · exact Or.inl h1
        · exact Or.inr (Or.inl h1)
    · rw [if_neg ht] at h
      exact absurd h (by simp)

theorem pyCatch_ok (caught : List PyErr) (body : Except PyErr Value)
    (hb : ∀ e, body = Except.error e → e ∈ caught) :
    ∃ w, pyCatch caught body = Except.ok w := by
  cases body with
  | ok w => exact ⟨w, rfl⟩
  | error e =>
    refine ⟨Value.none, ?_⟩
    unfold pyCatch
    dsimp only
    rw [if_pos (hb e rfl)]

theorem applyCoercionE_ok (c : String) (v : Value) :
    applyCoercionE c v = Except.ok (applyCoercion c v) := by
  have hex : ∃ w, applyCoercionE c v = Except.ok w := by
    unfold applyCoercionE
    by_cases hv : v = Value.none
    · rw [if_pos hv]; exact ⟨v, rfl⟩
    · rw [if_neg hv]
      by_cases hc1 : c = "latitude_numeric" ∨ c = "longitude_numeric"
      · rw [if_pos hc1]
        exact pyCatch_ok _ _ (fun e he => by
          rcases coordBody_error_mem v e he with h1 | h1 <;> simp [h1])
      · rw [if_neg hc1]
        by_cases hc2 : c = "company_id"
        · rw [if_pos hc2]
          exact pyCatch_ok _ _ (fun e he => by
            rcases companyBody_error_mem v e he with h1 | h1 <;> simp [h1])
        · rw [if_neg hc2]
          by_cases hc3 : c = "rate_paid"
          · rw [if_pos hc3]
            exact pyCatch_ok _ _ (fun e he => by
              rcases ratePaidBody_error_mem v e he with h1 | h1 | h1 <;> simp [h1])
          · rw [if_neg hc3]; exact ⟨v, rfl⟩
  obtain ⟨w, hw⟩ := hex
  rw [hw]
  unfold applyCoercion
  rw [hw]

theorem ratePaid_leading_token (s : String) :
    applyCoercion "rate_paid" (Value.str s) = leadingTokenFloatSpec s := by
  unfold applyCoercion applyCoercionE
  rw [if_neg (fun hc => Value.noConfusion hc), if_neg (by decide), if_neg (by decide),
    if_pos rfl]
  unfold ratePaidBody
  dsimp only
  unfold leadingTokenFloatSpec
  cases hsp : pySplit s with
  | nil => simp [pyCatch]
  | cons t ts =>
    have ht : truthy (Value.str t) = true := by
      simp only [truthy, ne_eq, decide_eq_true_eq]
      simpa using pySplit_head_ne_empty s t ts hsp
    dsimp only
    rw [if_pos ht]
    cases hp : parseDecimal? t with
    | some q =>
      have hf : pyFloat (Value.str t) = Except.ok q := by
        unfold pyFloat
        dsimp only
        rw [hp]
      rw [hf]
      simp [pyCatch]
    | none =>
      have hf : pyFloat (Value.str t) = Except.error PyErr.valueError := by
        unfold pyFloat
        dsimp only
        rw [hp]
      rw [hf]
      simp [pyCatch]

/-- C6: the column-directed numeric coercions of `_transform_parent` — a
truthy coordinate string parses to its float (and an unparsable one maps
to null), a truthy company-id string parses to its int (and an unparsable
one maps to null), the rate_paid coercion equals the spec's
leading-whitespace-token-parsed-as-float rule for every string (with the
concrete `"50.00 USD" ↦ 50.0` instance), and the whole conversion block is
total: it never lets an exception escape, for any column and value. -/
theorem numeric_coercions_leading_token_total (s1 : String) (q1 : Rat)
    (h1a : truthy (Value.str s1) = true) (h1b : parseDecimal? s1 = Option.some q1)
    (s2 : String) (h2 : parseDecimal? s2 = Option.none)
    (s3 : String) (n3 : Int)
    (h3a : truthy (Value.str s3) = true) (h3b : parseIntStr? s3 = Option.some n3)
    (s4 : String) (h4 : parseIntStr? s4 = Option.none)
    (s5 : String) (c : String) (v : Value) :
    applyCoercion "latitude_numeric" (Value.str s1) = Value.float q1
    ∧ applyCoercion "longitude_numeric" (Value.str s1) = Value.float q1
    ∧ applyCoercion "latitude_numeric" (Value.str s2) = Value.none
    ∧ applyCoercion "company_id" (Value.str s3) = Value.int n3
    ∧ applyCoercion "company_id" (Value.str s4) = Value.none
    ∧ applyCoercion "rate_paid" (Value.str s5) = leadingTokenFloatSpec s5
    ∧ applyCoercion "rate_paid" (Value.str "50.00 USD") = Value.float 50
    ∧ applyCoercionE c v = Except.ok (applyCoercion c v) := by
  have hf1 : pyFloat (Value.str s1) = Except.ok q1 := by
    unfold pyFloat
    dsimp only
    rw [h1b]
  have hf2 : pyFloat (Value.str s2) = Except.error PyErr.valueError := by
    unfold pyFloat
    dsimp only
    rw [h2]
  have hi3 : pyIntConv (Value.str s3) = Except.ok n3 := by
    unfold pyIntConv
    dsimp only
    rw [h3b]
  have hi4 : pyIntConv (Value.str s4) = Except.error PyErr.valueError := by
    unfold pyIntConv
    dsimp only
    rw [h4]
  have hcoord : ∀ s q, pyFloat (Value.str s) = Except.ok q → truthy (Value.str s) = true →
      ∀ col, (col = "latitude_numeric" ∨ col = "longitude_numeric") →
      applyCoercion col (Value.str s) = Value.float q := by
    intro s q hf ht col hcol
    unfold applyCoercion applyCoercionE
    rw [if_neg (fun hc => Value.noConfusion hc), if_pos hcol]
    unfold coordBody
    rw [if_pos ht, hf]
    simp [pyCatch]
  refine ⟨hcoord s1 q1 hf1 h1a _ (Or.inl rfl), hcoord s1 q1 hf1 h1a _ (Or.inr rfl),
    ?_, ?_, ?_, ratePaid_leading_token s5, by decide, applyCoercionE_ok c v⟩
  · unfold applyCoercion applyCoercionE
    rw [if_neg (fun hc => Value.noConfusion hc), if_pos (Or.inl rfl)]
    unfold coordBody
    by_cases ht : truthy (Value.str s2)
    · rw [if_pos ht, hf2]
      simp [pyCatch]
    · rw [if_neg ht]
      simp [pyCatch]
  · unfold applyCoercion applyCoercionE
    rw [if_neg (fun hc => Value.noConfusion hc), if_neg (by decide), if_pos rfl]
    unfold companyBody
    rw [if_pos h3a, hi3]
    simp [pyCatch]
  · unfold applyCoercion applyCoercionE
    rw [if_neg (fun hc => Value.noConfusion hc), if_neg (by decide), if_pos rfl]
    unfold companyBody
    by_cases ht : truthy (Value.str s4)
    · rw [if_pos ht, hi4]
      simp [pyCatch]
    · rw [if_neg ht]
      simp [pyCatch]

/-- Witness for the coercion contract at concrete inputs: latitudes
`"36.1627"` and `"USD"`, company ids `"8558"` and `"x9"`, rate
`"50.00 USD"`, and the totality instance at `company_id`/`"12"`. -/
theorem numeric_coercions_leading_token_total_witness :
    applyCoercion "latitude_numeric" (Value.str "36.1627")
        = Value.float (mkRat 361627 10000)
    ∧ applyCoercion "longitude_numeric" (Value.str "36.1627")
        = Value.float (mkRat 361627 10000)
    ∧ applyCoercion "latitude_numeric" (Value.str "USD") = Value.none
    ∧ applyCoercion "company_id" (Value.str "8558") = Value.int 8558
    ∧ applyCoercion "company_id" (Value.str "x9") = Value.none
    ∧ applyCoercion "rate_paid" (Value.str "50.00 USD") = leadingTokenFloatSpec "50.00 USD"
    ∧ applyCoercion "rate_paid" (Value.str "50.00 USD") = Value.float 50
    ∧ applyCoercionE "company_id" (Value.str "12")
        = Except.ok (applyCoercion "company_id" (Value.str "12")) :=
  numeric_coercions_leading_token_total "36.1627" (mkRat 361627 10000) (by decide) (by decide)
    "USD" (by decide) "8558" 8558 (by decide) (by decide) "x9" (by decide)
    "50.00 USD" "company_id" (Value.str "12")

/-! Fold lemmas over the record-building loops of `_transform_parent`. -/

theorem dget_foldl_preserve {α : Type} (step : Record → α → Record) :
    ∀ (l : List α) (init : Record) (col : String),
      (∀ x ∈ l, ∀ acc, dget (step acc x) col = dget acc col) →
      dget (l.foldl step init) col = dget init col := by
  intro l
  induction l with
  | nil => intro init col _; rfl
  | cons x xs ih =>
    intro init col h
    rw [List.foldl_cons,
      ih (step init x) col (fun y hy acc => h y (List.mem_cons_of_mem x hy) acc)]
    exact h x (List.mem_cons_self x xs) init

theorem dget_foldl_dset_not_mem {α : Type} (g : α → String) (f : α → Value)
    (l : List α) (init : Record) (col : String) (h : col ∉ l.map g) :
    dget (l.foldl (fun acc x => dset acc (g x) (f x)) init) col = dget init col := by
  apply dget_foldl_preserve
  intro x hx acc
  apply dget_dset_ne
  intro hc
  exact h (hc ▸ List.mem_map_of_mem g hx)

theorem dget_foldl_dset_split {α : Type} (g : α → String) (f : α → Value)
    (l1 : List α) (x : α) (l2 : List α) (init : Record) (h2 : g x ∉ l2.map g) :
    dget ((l1 ++ x :: l2).foldl (fun acc y => dset acc (g y) (f y)) init) (g x) = f x := by
  rw [List.foldl_append, List.foldl_cons,
    dget_foldl_dset_not_mem g f l2 _ (g x) h2]
  exact dget_dset_self _ (g x) (f x)

theorem nestedStep_preserve (record : Record) (col : String)
    (g : String × List (String × String)) (h : col ∉ g.2.map Prod.snd) (acc : Record) :
    dget (nestedStep record acc g) col = dget acc col := by
  unfold nestedStep
  cases dgetD record g.1 (Value.dict []) with
  | dict d => exact dget_foldl_dset_not_mem Prod.snd (fun nm => dget d nm.1) g.2 acc col h
  | none => rfl
  | bool b => rfl
  | int n => rfl
  | float q => rfl
  | str s => rfl
  | list l => rfl

/-- C7: nested-field flattening in `_transform_parent` — provided the
entity's write targets are pairwise distinct (true of every configured
entity), for any declared nested group `(pf, m)` and declared sub-field
`(nf, col)`: when the raw record's `pf` is a dict (or missing, read as the
empty dict), the flat column `col` of the transformed parent holds exactly
the sub-object's `nf` value (null when absent); and when `pf` holds null
or any non-dict value, `col` reads as null in the transformed parent, with
no exception in either case (`transform_parent` is a total function). -/
theorem nested_fields_flattening (cfg : EntityConfig) (region : String) (sy : Value)
    (record : Record) (pf : String) (m : List (String × String)) (nf col : String)
    (hnodup : (transformTargets cfg).Nodup)
    (hg : (pf, m) ∈ cfg.nested_fields) (he : (nf, col) ∈ m) :
    (∀ d, dgetD record pf (Value.dict []) = Value.dict d →
      dget (transform_parent cfg region sy record) col = dget d nf)
    ∧ ((∀ d, dgetD record pf (Value.dict []) ≠ Value.dict d) →
      dget (transform_parent cfg region sy record) col = Value.none) := by
  unfold transformTargets at hnodup
  rw [List.nodup_cons] at hnodup
  obtain ⟨hreg, hnodup⟩ := hnodup
  rw [List.nodup_append] at hnodup
  obtain ⟨hFN, _, hdisjS⟩ := hnodup
  rw [List.nodup_append] at hFN
  obtain ⟨hF, hN, hdisjFN⟩ := hFN
  have hcolN : col ∈ cfg.nested_fields.flatMap (fun g => g.2.map Prod.snd) :=
    List.mem_flatMap.mpr ⟨(pf, m), hg, List.mem_map_of_mem Prod.snd he⟩
  have hcol_s : col ≠ "synced_at" := by
    intro hc
    exact hdisjS (List.mem_append_right _ hcolN) (by rw [hc]; exact List.mem_singleton.mpr rfl)
  have hcol_F : col ∉ cfg.fields_mapping.map Prod.snd := fun hc => hdisjFN hc hcolN
  have hcol_reg : col ≠ "region_code" := by
    intro hc
    exact hreg (List.mem_append_left _ (List.mem_append_right _ (hc ▸ hcolN)))
  obtain ⟨L1, L2, hL⟩ := List.append_of_mem hg
  have hNsplit : cfg.nested_fields.flatMap (fun g => g.2.map Prod.snd)
      = L1.flatMap (fun g => g.2.map Prod.snd)
        ++ (m.map Prod.snd ++ L2.flatMap (fun g => g.2.map Prod.snd)) := by
    rw [hL, List.flatMap_append, List.flatMap_cons]
  rw [hNsplit] at hN
  rw [List.nodup_append] at hN
  obtain ⟨hL1f, hmL2, hdisj1⟩ := hN
  rw [List.nodup_append] at hmL2
  obtain ⟨hm, hL2f, hdisj2⟩ := hmL2
  have hcol_m : col ∈ m.map Prod.snd := List.mem_map_of_mem Prod.snd he
  have hcol_L1 : col ∉ L1.flatMap (fun g => g.2.map Prod.snd) :=
    fun hc => hdisj1 hc (List.mem_append_left _ hcol_m)
  have hcol_L2 : col ∉ L2.flatMap (fun g => g.2.map Prod.snd) :=
    fun hc => hdisj2 hcol_m hc
  obtain ⟨M1, M2, hM⟩ := List.append_of_mem he
  have hmsplit : m.map Prod.snd = M1.map Prod.snd ++ col :: M2.map Prod.snd := by
    rw [hM]
    simp
  rw [hmsplit, List.nodup_append] at hm
  obtain ⟨_, hconsM2, _⟩ := hm
  rw [List.nodup_cons] at hconsM2
  obtain ⟨hcol_M2, _⟩ := hconsM2
  have hmain : dget (transform_parent cfg region sy record) col
      = dget (nestedStep record
          (L1.foldl (nestedStep record)
            (cfg.fields_mapping.foldl (fieldStep record) [("region_code", Value.str region)]))
          (pf, m)) col := by
    unfold transform_parent
    rw [dget_dset_ne _ _ _ _ hcol_s, hL, List.foldl_append, List.foldl_cons]
    exact dget_foldl_preserve (nestedStep record) L2 _ col
      (fun x hx acc => nestedStep_preserve record col x
        (fun hc => hcol_L2 (List.mem_flatMap.mpr ⟨x, hx, hc⟩)) acc)
  have hT1 : dget (cfg.fields_mapping.foldl (fieldStep record)
      [("region_code", Value.str region)]) col = Value.none := by
    have h1 : dget (cfg.fields_mapping.foldl (fieldStep record)
        [("region_code", Value.str region)]) col
        = dget [("region_code", Value.str region)] col :=
      dget_foldl_dset_not_mem Prod.snd (fun mm => applyCoercion mm.2 (dget record mm.1))
        cfg.fields_mapping _ col hcol_F
    rw [h1]
    unfold dget dgetD
    rw [if_neg (fun hc => hcol_reg hc.symm)]
    rfl
  have hA : dget (L1.foldl (nestedStep record)
      (cfg.fields_mapping.foldl (fieldStep record) [("region_code", Value.str region)])) col
      = Value.none := by
    rw [dget_foldl_preserve (nestedStep record) L1 _ col
      (fun x hx acc => nestedStep_preserve record col x
        (fun hc => hcol_L1 (List.mem_flatMap.mpr ⟨x, hx, hc⟩)) acc)]
    exact hT1
  constructor
  · intro d hv
    rw [hmain]
    unfold nestedStep
    dsimp only
    rw [hv]
    dsimp only
    rw [hM]
    have := dget_foldl_dset_split Prod.snd (fun nm => dget d nm.1) M1 (nf, col) M2
      (L1.foldl (nestedStep record)
        (cfg.fields_mapping.foldl (fieldStep record) [("region_code", Value.str region)]))
      (by simpa using hcol_M2)
    simpa using this
  · intro hnd
    rw [hmain]
    unfold nestedStep
    dsimp only
    cases hv : dgetD record pf (Value.dict []) with
    | dict d => exact absurd hv (hnd d)
    | none => exact hA
    | bool b => exact hA
    | int n => exact hA
    | float q => exact hA
    | str s => exact hA
    | list l => exact hA

/-- Witness for nested-field flattening on the real properties entity: a
present `notes` object flattens `about` into `property_notes_general`, and
an explicit `notes: null` leaves the column reading as null. -/
theorem nested_fields_flattening_witness :
    dget (transform_parent propertiesConfig "nashville" (Value.str "ts")
        [("notes", Value.dict [("about", Value.str "hi")])]) "property_notes_general"
      = dget [("about", Value.str "hi")] "about"
    ∧ dget (transform_parent propertiesConfig "nashville" (Value.str "ts")
        [("notes", Value.none)]) "property_notes_general" = Value.none :=
  ⟨(nested_fields_flattening propertiesConfig "nashville" (Value.str "ts")
      [("notes", Value.dict [("about", Value.str "hi")])] "notes"
      [("about", "property_notes_general"), ("access", "property_notes_access"),
       ("guest_access", "property_notes_guest_access"), ("direction", "property_notes_direction"),
       ("trash_info", "property_notes_trash_info"), ("wifi", "property_notes_wifi")]
      "about" "property_notes_general" (by decide) (by decide) (by decide)).1
      [("about", Value.str "hi")] (by decide),
   (nested_fields_flattening propertiesConfig "nashville" (Value.str "ts")
      [("notes", Value.none)] "notes"
      [("about", "property_notes_general"), ("access", "property_notes_access"),
       ("guest_access", "property_notes_guest_access"), ("direction", "property_notes_direction"),
       ("trash_info", "property_notes_trash_info"), ("wifi", "property_notes_wifi")]
      "about" "property_notes_general" (by decide) (by decide) (by decide)).2
      (fun d hc => by
        rw [(by decide :
          dgetD [("notes", Value.none)] "notes" (Value.dict []) = Value.none)] at hc
        exact Value.noConfusion hc)⟩

/-! Per-record lemmas about the child-upsert FK resolution. -/

theorem resolveChildRecord_spec (parent_fk : String) (pm : List (String × Nat)) (r : Record)
    (hfresh : dmem r parent_fk = false) :
    dmem (resolveChildRecord parent_fk pm r) parent_fk = false
    ∨ ∃ mp ∈ pm, dget (resolveChildRecord parent_fk pm r) parent_fk = Value.int mp.2 := by
  have hrem : dmem (dremove r "_parent_api_id") parent_fk = false :=
    dmem_dremove_of_false r "_parent_api_id" parent_fk hfresh
  unfold resolveChildRecord
  dsimp only
  cases hpid : dget r "_parent_api_id" with
  | str s =>
    dsimp only
    by_cases ht : truthy (Value.str s)
    · rw [if_pos ht]
      cases hfind : pm.find? (fun mp => mp.1 = s) with
      | some mp =>
        right
        exact ⟨mp, List.mem_of_find?_eq_some hfind, dget_dset_self _ _ _⟩
      | none => exact Or.inl hrem
    · rw [if_neg ht]
      exact Or.inl hrem
  | none => exact Or.inl hrem
  | bool b => exact Or.inl hrem
  | int n => exact Or.inl hrem
  | float q => exact Or.inl hrem
  | list l => exact Or.inl hrem
  | dict d => exact Or.inl hrem

theorem resolveTagRecord_dget (tm : List (String × Nat)) (pf : String) (r : Record)
    (h2 : pf ≠ "tag_id") (h3 : pf ≠ "tag_pk") :
    dget (resolveTagRecord tm r) pf = dget r pf := by
  have hrem : dget (dremove r "tag_id") pf = dget r pf := dget_dremove_ne r "tag_id" pf h2
  unfold resolveTagRecord
  dsimp only
  cases htid : dget r "tag_id" with
  | str s =>
    dsimp only
    by_cases ht : truthy (Value.str s)
    · rw [if_pos ht]
      cases hfind : tm.find? (fun mp => mp.1 = s) with
      | some mp => rw [dget_dset_ne _ _ _ _ h3, hrem]
      | none => exact hrem
    · rw [if_neg ht]
      exact hrem
  | none => exact hrem
  | bool b => exact hrem
  | int n => exact hrem
  | float q => exact hrem
  | list l => exact hrem
  | dict d => exact hrem

/-- C2: the child-upsert pipeline — for a batch in which no record
arrives already carrying the parent-FK column (as produced by transform),
every record that reaches the INSERT statement has its parent-FK column
set to a surrogate key present in the tenant-scoped parent mapping
(children whose transient parent id does not resolve are dropped, never
inserted, and nothing raises), and no two inserted records share the
child table's natural-key tuple. -/
theorem upsert_children_resolved_and_nodup (child_type parent_fk : String)
    (natural_key : List String) (parentMapping tagMapping : List (String × Nat))
    (records : List Record)
    (hfresh : ∀ r ∈ records, dmem r parent_fk = false)
    (hpf2 : parent_fk ≠ "tag_id") (hpf3 : parent_fk ≠ "tag_pk") (hk : natural_key ≠ []) :
    (∀ r ∈ upsertChildrenBatch child_type parent_fk natural_key parentMapping tagMapping records,
      ∃ pk ∈ parentMapping.map Prod.snd, dget r parent_fk = Value.int pk)
    ∧ ((upsertChildrenBatch child_type parent_fk natural_key parentMapping tagMapping
        records).map (keyTuple natural_key)).Nodup := by
  have hres : ∀ r ∈ (records.map (resolveChildRecord parent_fk parentMapping)).filter
      (fun r => dmem r parent_fk),
      ∃ pk ∈ parentMapping.map Prod.snd, dget r parent_fk = Value.int pk := by
    intro r hr
    rw [List.mem_filter] at hr
    obtain ⟨hmap, hmem⟩ := hr
    rcases List.mem_map.mp hmap with ⟨r0, hr0, rfl⟩
    rcases resolveChildRecord_spec parent_fk parentMapping r0 (hfresh r0 hr0) with h | h
    · rw [h] at hmem
      exact absurd hmem (by simp)
    · obtain ⟨mp, hmp, heq⟩ := h
      exact ⟨mp.2, List.mem_map_of_mem Prod.snd hmp, heq⟩
  have hafter : ∀ r ∈ (if child_type = "task_tags" then
      (((records.map (resolveChildRecord parent_fk parentMapping)).filter
        (fun r => dmem r parent_fk)).map (resolveTagRecord tagMapping)).filter
        (fun r => dmem r "tag_pk")
      else (records.map (resolveChildRecord parent_fk parentMapping)).filter
        (fun r => dmem r parent_fk)),
      ∃ pk ∈ parentMapping.map Prod.snd, dget r parent_fk = Value.int pk := by
    by_cases hct : child_type = "task_tags"
    · rw [if_pos hct]
      intro r hr
      rw [List.mem_filter] at hr
      rcases List.mem_map.mp hr.1 with ⟨r1, hr1, rfl⟩
      obtain ⟨pk, hpk, heq⟩ := hres r1 hr1
      exact ⟨pk, hpk, by rw [resolveTagRecord_dget tagMapping parent_fk r1 hpf2 hpf3]; exact heq⟩
    · rw [if_neg hct]
      exact hres
  have hshape : upsertChildrenBatch child_type parent_fk natural_key parentMapping tagMapping
      records = (dedupLoop natural_key (if child_type = "task_tags" then
        (((records.map (resolveChildRecord parent_fk parentMapping)).filter
          (fun r => dmem r parent_fk)).map (resolveTagRecord tagMapping)).filter
          (fun r => dmem r "tag_pk")
        else (records.map (resolveChildRecord parent_fk parentMapping)).filter
          (fun r => dmem r parent_fk)) []).1 := by
    unfold upsertChildrenBatch
    dsimp only
    rw [if_pos hk]
  rw [hshape]
  constructor
  · intro r hr
    exact hafter r ((dedupLoop_sublist natural_key _ []).mem hr)
  · exact dedupLoop_keys_nodup natural_key _ []

/-- Witness for the child-upsert pipeline: a photos batch of three
records, one with an unresolvable parent id and two sharing a natural-key
tuple; the surviving record carries the mapped surrogate key and the
inserted keys are duplicate-free. -/
theorem upsert_children_resolved_and_nodup_witness :
    (∃ pk ∈ ([("1", 100)] : List (String × Nat)).map Prod.snd,
      dget [("region_code", Value.str "n"), ("photo_id", Value.str "a"),
        ("property_pk", Value.int 100)] "property_pk" = Value.int pk)
    ∧ ((upsertChildrenBatch "photos" "property_pk" ["photo_id", "property_pk"]
        [("1", 100)] []
        [[("region_code", Value.str "n"), ("photo_id", Value.str "a"),
          ("_parent_api_id", Value.str "1")],
         [("region_code", Value.str "n"), ("photo_id", Value.str "b"),
          ("_parent_api_id", Value.str "2")],
         [("region_code", Value.str "n"), ("photo_id", Value.str "a"),
          ("_parent_api_id", Value.str "1")]]).map
        (keyTuple ["photo_id", "property_pk"])).Nodup :=
  ⟨(upsert_children_resolved_and_nodup "photos" "property_pk" ["photo_id", "property_pk"]
      [("1", 100)] []
      [[("region_code", Value.str "n"), ("photo_id", Value.str "a"),
        ("_parent_api_id", Value.str "1")],
       [("region_code", Value.str "n"), ("photo_id", Value.str "b"),
        ("_parent_api_id", Value.str "2")],
       [("region_code", Value.str "n"), ("photo_id", Value.str "a"),
        ("_parent_api_id", Value.str "1")]]
      (by decide) (by decide) (by decide) (by decide)).1
    [("region_code", Value.str "n"), ("photo_id", Value.str "a"), ("property_pk", Value.int 100)]
    (by decide),
   (upsert_children_resolved_and_nodup "photos" "property_pk" ["photo_id", "property_pk"]
      [("1", 100)] []
      [[("region_code", Value.str "n"), ("photo_id", Value.str "a"),
        ("_parent_api_id", Value.str "1")],
       [("region_code", Value.str "n"), ("photo_id", Value.str "b"),
        ("_parent_api_id", Value.str "2")],
       [("region_code", Value.str "n"), ("photo_id", Value.str "a"),
        ("_parent_api_id", Value.str "1")]]
      (by decide) (by decide) (by decide) (by decide)).2⟩

end Breezeway
